import Mathlib

/-!
# Smart Parking Lot System — verification development

Shallow embedding of the TypeScript sources of the Smart-Parking-Lot-System
repository (models `Vehicle`, `ParkingSpot`, `ParkingTicket`, the
`ParkingLotRepository`, and the services `FeeCalculator`, `ParkingSpotManager`,
`ParkingLotService`), together with theorems settling the specification's
claims about them.

Modelling conventions:
* The repository's three JavaScript `Map`s (spots by id, tickets by id,
  active tickets by license plate) become lists kept in insertion order,
  with `Map.set` modelled as replace-or-append and `Map.delete` as removal
  by key.  The active-ticket index stores the ticket id; resolving it
  through the ticket store mirrors the shared-object aliasing of the source
  (both maps hold the same ticket object).
* In-place mutation of a spot or ticket object reached through a map becomes
  replacement, by key, of the stored value.
* JavaScript numbers carrying money or fractional hours become `ℚ`;
  timestamps (`Date.getTime()`, milliseconds) become `ℤ`.
* `Array.prototype.sort` (a stable sort) is embedded as `List.insertionSort`,
  which is also stable; `localeCompare` on spot ids is code-point
  lexicographic comparison.
* Thrown exceptions become an `Except` error component; every operation also
  returns the post-call state, so an error raised before any mutation returns
  the unchanged state, and an error raised mid-way returns the partially
  mutated one, exactly as the exception would leave the in-memory store.
* `async`/`Mutex.runExclusive` disappears: each service call runs its body
  atomically, which is what the source's locks guarantee.
-/

/-- `VehicleType` enumeration from `types` (small = MOTORCYCLE,
medium = CAR, large = BUS). -/
inductive VehicleType where
  | MOTORCYCLE
  | CAR
  | BUS
deriving DecidableEq, Repr

/-- `SpotType` enumeration from `types` (small-only = MOTORCYCLE,
medium-capable = COMPACT, large-capable = LARGE). -/
inductive SpotType where
  | MOTORCYCLE
  | COMPACT
  | LARGE
deriving DecidableEq, Repr

/-- Error values for the exceptions thrown by the source. -/
inductive PError where
  | alreadyParked
  | noActiveSession
  | alreadyCompleted
  | unknownVehicleClass
  | spotNotFound
  | spotOccupied
deriving DecidableEq, Repr

/-! ## Decimal rendering of numbers (JavaScript template literals) -/

/-- Digit accumulation for decimal rendering, structurally recursive on fuel.
`decDigitsAux fuel n` is the list of decimal digit characters of `n` (most
significant first) provided `n ≤ fuel` and `n ≠ 0`. -/
def decDigitsAux : Nat → Nat → List Char
  | 0, _ => []
  | fuel + 1, n => if n = 0 then [] else decDigitsAux fuel (n / 10) ++ [Nat.digitChar (n % 10)]

/-- Decimal rendering of a natural number, as produced by JavaScript
string interpolation of a nonnegative integer. -/
def natDecimal (n : Nat) : String :=
  if n = 0 then "0" else ⟨decDigitsAux n n⟩

/-- Value of a list of decimal digit characters (left inverse of rendering). -/
def decVal (l : List Char) : Nat :=
  l.foldl (fun acc c => acc * 10 + (c.toNat - 48)) 0

/-- The numeric part of a class-prefixed spot id: the decimal value of the id
with its one-letter class prefix removed. -/
def idKey (s : String) : Nat :=
  decVal s.data.tail

/-! ## Domain models -/

/-- `Vehicle` model (immutable; the optional owner name plays no role in any
claim and is omitted). -/
structure Vehicle where
  licensePlate : String
  type : VehicleType
deriving DecidableEq, Repr

/-- `ParkingSpot` model: identity, floor, capacity class and mutable
occupancy state. -/
structure ParkingSpot where
  id : String
  floor : Nat
  spotType : SpotType
  isAvailable : Bool
  currentVehicleLicense : Option String
deriving DecidableEq, Repr

/-- `ParkingSpot.canFit` from the source: switch on the spot's type. -/
def ParkingSpot.canFit (s : ParkingSpot) (vehicleType : VehicleType) : Bool :=
  match s.spotType with
  | .MOTORCYCLE => vehicleType == .MOTORCYCLE
  | .COMPACT => vehicleType == .MOTORCYCLE || vehicleType == .CAR
  | .LARGE => true

/-- `ParkingSpot.occupy`: throws if the spot is not available, otherwise
marks it occupied by the given license. -/
def ParkingSpot.occupy (s : ParkingSpot) (vehicleLicense : String) :
    Except PError ParkingSpot :=
  if s.isAvailable then
    .ok { s with isAvailable := false, currentVehicleLicense := some vehicleLicense }
  else
    .error .spotOccupied

/-- `ParkingSpot.release`: unconditionally marks the spot available and
clears the occupant. -/
def ParkingSpot.release (s : ParkingSpot) : ParkingSpot :=
  { s with isAvailable := true, currentVehicleLicense := none }

/-- The occupied copy of a spot (the state `occupy` produces on success). -/
def occupiedBy (s : ParkingSpot) (vehicleLicense : String) : ParkingSpot :=
  { s with isAvailable := false, currentVehicleLicense := some vehicleLicense }

/-- `ParkingTicket` model.  The source stores a reference to the allocated
spot object; only its (immutable) id is ever read back, so the embedding
stores the id. -/
structure ParkingTicket where
  ticketId : String
  vehicle : Vehicle
  spotId : String
  entryTime : Int
  exitTime : Option Int
  fee : Option ℚ
deriving DecidableEq, Repr

/-- `ParkingTicket.isActive`: the exit time is unset. -/
def ParkingTicket.isActive (t : ParkingTicket) : Bool :=
  t.exitTime.isNone

/-- `ParkingTicket.complete`: throws if already completed, otherwise sets
exit time and fee. -/
def ParkingTicket.complete (t : ParkingTicket) (exitTime : Int) (fee : ℚ) :
    Except PError ParkingTicket :=
  if t.isActive then .ok { t with exitTime := some exitTime, fee := some fee }
  else .error .alreadyCompleted

/-- `ParkingTicket.getDuration`: hours between entry time and exit time
(current time while the ticket is active). -/
def ParkingTicket.getDuration (t : ParkingTicket) (now : Int) : ℚ :=
  ((t.exitTime.getD now - t.entryTime : ℤ) : ℚ) / (3600000 : ℚ)

/-! ## FeeCalculator -/

/-- `ParkingRate` configuration record. -/
structure ParkingRate where
  vehicleType : VehicleType
  baseFee : ℚ
  hourlyRate : ℚ
deriving DecidableEq, Repr

/-- The default rate table from the `FeeCalculator` constructor. -/
def defaultRates : List ParkingRate :=
  [⟨.MOTORCYCLE, 2, 1⟩, ⟨.CAR, 5, 5/2⟩, ⟨.BUS, 10, 5⟩]

/-- `Map.set` on the rate map keyed by vehicle type. -/
def rateSet (m : List ParkingRate) (r : ParkingRate) : List ParkingRate :=
  if m.any (fun x => x.vehicleType == r.vehicleType) then
    m.map (fun x => if x.vehicleType == r.vehicleType then r else x)
  else m ++ [r]

/-- The `FeeCalculator` constructor: insert the given rates into an empty
map, later entries overwriting earlier ones of the same vehicle type. -/
def buildRates (rates : List ParkingRate) : List ParkingRate :=
  rates.foldl rateSet []

/-- `Map.get` on the rate map. -/
def rateFor (m : List ParkingRate) (vt : VehicleType) : Option ParkingRate :=
  m.find? (fun r => r.vehicleType == vt)

/-- `FeeCalculator.calculateFee`: round the duration up to whole hours; one
base fee covers the first hour, additional hours are charged at the hourly
rate.  Throws if no rate is registered for the vehicle type. -/
def calculateFee (m : List ParkingRate) (vehicleType : VehicleType)
    (durationHours : ℚ) : Except PError ℚ :=
  match rateFor m vehicleType with
  | none => .error .unknownVehicleClass
  | some rate =>
    let hours : ℤ := ⌈durationHours⌉
    if hours ≤ 1 then .ok rate.baseFee
    else .ok (rate.baseFee + ((hours - 1 : ℤ) : ℚ) * rate.hourlyRate)

/-! ## Repository state -/

/-- The whole mutable state of one parking-lot service instance: the
repository's three maps, the service's ticket counter, and the fee
calculator's rate map. -/
structure LotState where
  spots : List ParkingSpot
  tickets : List ParkingTicket
  activeTicketsByVehicle : List (String × String)
  ticketCounter : Nat
  rates : List ParkingRate
deriving DecidableEq, Repr

/-- `ParkingLotRepository.addSpot` (`Map.set` keyed by spot id). -/
def addSpot (spots : List ParkingSpot) (s : ParkingSpot) : List ParkingSpot :=
  if spots.any (fun x => x.id == s.id) then
    spots.map (fun x => if x.id == s.id then s else x)
  else spots ++ [s]

/-- `ParkingLotRepository.getSpot`. -/
def getSpot (spots : List ParkingSpot) (spotId : String) : Option ParkingSpot :=
  spots.find? (fun s => s.id == spotId)

/-- `ParkingLotRepository.getAvailableSpots`. -/
def getAvailableSpots (st : LotState) : List ParkingSpot :=
  st.spots.filter (·.isAvailable)

/-- In-place mutation of the spot object stored under its id. -/
def updateSpot (spots : List ParkingSpot) (s : ParkingSpot) : List ParkingSpot :=
  spots.map (fun x => if x.id == s.id then s else x)

/-- `Map.set` on the ticket map keyed by ticket id (replace the first entry
with this key, else append). -/
def setTicket : List ParkingTicket → ParkingTicket → List ParkingTicket
  | [], t => [t]
  | x :: l, t => if x.ticketId == t.ticketId then t :: l else x :: setTicket l t

/-- `ParkingLotRepository.getTicket`. -/
def lookupTicket (tickets : List ParkingTicket) (ticketId : String) :
    Option ParkingTicket :=
  tickets.find? (fun t => t.ticketId == ticketId)

/-- `Map.set` on the vehicle → active-ticket index. -/
def indexSet : List (String × String) → String → String → List (String × String)
  | [], plate, tid => [(plate, tid)]
  | e :: l, plate, tid =>
    if e.1 == plate then (plate, tid) :: l else e :: indexSet l plate tid

/-- `Map.delete` on the vehicle → active-ticket index. -/
def indexDelete (idx : List (String × String)) (plate : String) :
    List (String × String) :=
  idx.filter (fun e => !(e.1 == plate))

/-- `Map.get` on the vehicle → active-ticket index. -/
def indexLookup (idx : List (String × String)) (plate : String) : Option String :=
  (idx.find? (fun e => e.1 == plate)).map (·.2)

/-- `ParkingLotRepository.getActiveTicketByVehicle`: the index holds (a
reference to) the ticket stored in the ticket map. -/
def getActiveTicketByVehicle (st : LotState) (licensePlate : String) :
    Option ParkingTicket :=
  match indexLookup st.activeTicketsByVehicle licensePlate with
  | none => none
  | some tid => lookupTicket st.tickets tid

/-- `ParkingLotRepository.addTicket`: store the ticket; if it is active,
index it by its vehicle's license plate. -/
def addTicket (st : LotState) (t : ParkingTicket) : LotState :=
  { st with
    tickets := setTicket st.tickets t,
    activeTicketsByVehicle :=
      if t.isActive then indexSet st.activeTicketsByVehicle t.vehicle.licensePlate t.ticketId
      else st.activeTicketsByVehicle }

/-- `ParkingLotRepository.completeTicket`: drop the index entry of the
ticket stored under this id (the ticket itself stays in the store). -/
def completeTicket (st : LotState) (ticketId : String) : LotState :=
  match lookupTicket st.tickets ticketId with
  | some t =>
    { st with activeTicketsByVehicle := indexDelete st.activeTicketsByVehicle t.vehicle.licensePlate }
  | none => st

/-! ## Spot ordering (the allocation comparator) -/

/-- Code-point lexicographic comparison of character lists. -/
def strLeChars : List Char → List Char → Bool
  | [], _ => true
  | _ :: _, [] => false
  | a :: as, b :: bs =>
    if a.toNat < b.toNat then true
    else if b.toNat < a.toNat then false
    else strLeChars as bs

/-- Code-point lexicographic comparison of strings (the embedding of
`localeCompare(...) ≤ 0`). -/
def idLe (a b : String) : Bool :=
  strLeChars a.data b.data

/-- The allocation comparator of `ParkingSpotManager.allocateSpot`: lower
floors first, ties broken by spot id. -/
def spotOrderB (a b : ParkingSpot) : Bool :=
  if a.floor ≠ b.floor then decide (a.floor < b.floor) else idLe a.id b.id

/-- The comparator as a relation, for sorting. -/
def spotLE (a b : ParkingSpot) : Prop :=
  spotOrderB a b = true

instance : DecidableRel spotLE := fun a b => inferInstanceAs (Decidable (_ = true))

/-! ## Services -/

/-- The filtered list of `ParkingSpotManager.allocateSpot`: the available
spots that can fit the vehicle. -/
def candidates (st : LotState) (vehicleType : VehicleType) : List ParkingSpot :=
  (getAvailableSpots st).filter (fun s => s.canFit vehicleType)

/-- `ParkingSpotManager.allocateSpot`: filter the available spots that fit
the vehicle, sort by (floor, id), occupy and return the first, or return
`none` when no candidate exists.  (`occupy` cannot throw here: the selected
spot comes from the available list.) -/
def allocateSpot (st : LotState) (vehicleType : VehicleType)
    (vehicleLicense : String) : Option ParkingSpot × LotState :=
  match (candidates st vehicleType).insertionSort spotLE with
  | [] => (none, st)
  | selectedSpot :: _ =>
    match selectedSpot.occupy vehicleLicense with
    | .ok s' => (some s', { st with spots := updateSpot st.spots s' })
    | .error _ => (none, st)

/-- `ParkingSpotManager.releaseSpot`: look the spot up, throw `NotFound` if
absent, otherwise release it. -/
def releaseSpot (st : LotState) (spotId : String) :
    Except PError Unit × LotState :=
  match getSpot st.spots spotId with
  | none => (.error .spotNotFound, st)
  | some spot => (.ok (), { st with spots := updateSpot st.spots spot.release })

/-- `String.prototype.padStart` (pad on the left up to the given length). -/
def padStart (s : String) (len : Nat) (c : Char) : String :=
  ⟨List.replicate (len - s.length) c⟩ ++ s

/-- `ParkingLotService.generateTicketId` applied to the current counter
value. -/
def generateTicketId (n : Nat) : String :=
  "T" ++ padStart (natDecimal n) 6 '0'

/-- `ParkingLotService.checkInVehicle`: refuse if the vehicle already has an
active session; return `none` (no mutation) when allocation finds no spot;
otherwise create and store an active ticket for the allocated spot. -/
def checkInVehicle (st : LotState) (vehicle : Vehicle) (now : Int) :
    Except PError (Option ParkingTicket) × LotState :=
  match getActiveTicketByVehicle st vehicle.licensePlate with
  | some _ => (.error .alreadyParked, st)
  | none =>
    match allocateSpot st vehicle.type vehicle.licensePlate with
    | (none, st1) => (.ok none, st1)
    | (some spot, st1) =>
      let ticketId := generateTicketId st1.ticketCounter
      let ticket : ParkingTicket := ⟨ticketId, vehicle, spot.id, now, none, none⟩
      let st2 := addTicket { st1 with ticketCounter := st1.ticketCounter + 1 } ticket
      (.ok (some ticket), st2)

/-- `ParkingLotService.checkOutVehicle`: find the active ticket, compute the
fee from the elapsed duration, complete the ticket, drop the index entry and
release the spot. -/
def checkOutVehicle (st : LotState) (licensePlate : String) (now : Int) :
    Except PError ParkingTicket × LotState :=
  match getActiveTicketByVehicle st licensePlate with
  | none => (.error .noActiveSession, st)
  | some ticket =>
    let duration := ticket.getDuration now
    match calculateFee st.rates ticket.vehicle.type duration with
    | .error e => (.error e, st)
    | .ok fee =>
      match ticket.complete now fee with
      | .error e => (.error e, st)
      | .ok t' =>
        let st1 := completeTicket { st with tickets := setTicket st.tickets t' } t'.ticketId
        match releaseSpot st1 t'.spotId with
        | (.error e, st2) => (.error e, st2)
        | (.ok _, st2) => (.ok t', st2)

/-- Per-floor spot counts, the argument of `initializeParkingLot`. -/
structure SpotsPerFloor where
  motorcycle : Nat
  compact : Nat
  large : Nat
deriving DecidableEq, Repr

/-- The declared per-floor count of one spot class. -/
def classCount (cfg : SpotsPerFloor) : SpotType → Nat
  | .MOTORCYCLE => cfg.motorcycle
  | .COMPACT => cfg.compact
  | .LARGE => cfg.large

/-- The id letter used for each spot class. -/
def classPfx : SpotType → String
  | .MOTORCYCLE => "M"
  | .COMPACT => "C"
  | .LARGE => "L"

/-- One inner loop of `initializeParkingLot`: create `cnt` spots of one class
on one floor, threading the shared id counter. -/
def buildClassSpots (sty : SpotType) (floor : Nat) : Nat → Nat → List ParkingSpot × Nat
  | 0, ctr => ([], ctr)
  | cnt + 1, ctr =>
    let s : ParkingSpot := ⟨classPfx sty ++ natDecimal ctr, floor, sty, true, none⟩
    let r := buildClassSpots sty floor cnt (ctr + 1)
    (s :: r.1, r.2)

/-- One floor iteration of `initializeParkingLot`: motorcycle, then compact,
then large spots, all drawing ids from the same counter. -/
def buildFloorSpots (cfg : SpotsPerFloor) (floor ctr : Nat) : List ParkingSpot × Nat :=
  let m := buildClassSpots .MOTORCYCLE floor cfg.motorcycle ctr
  let c := buildClassSpots .COMPACT floor cfg.compact m.2
  let l := buildClassSpots .LARGE floor cfg.large c.2
  (m.1 ++ c.1 ++ l.1, l.2)

/-- The floor loop of `initializeParkingLot`, floors numbered from 1. -/
def buildFloors (cfg : SpotsPerFloor) : Nat → Nat → Nat → List ParkingSpot × Nat
  | 0, _, ctr => ([], ctr)
  | n + 1, floor, ctr =>
    let f := buildFloorSpots cfg floor ctr
    let r := buildFloors cfg n (floor + 1) f.2
    (f.1 ++ r.1, r.2)

/-- `ParkingLotService.initializeParkingLot`: build all spots (shared id
counter starting at 1, floors 1..floors) and add each to the repository. -/
def initLot (st : LotState) (floors : Nat) (cfg : SpotsPerFloor) : LotState :=
  { st with spots := ((buildFloors cfg floors 1 1).1).foldl addSpot st.spots }

/-- A freshly constructed repository + service stack, before initialization:
empty maps, ticket counter 1, fee calculator built from the given rates. -/
def emptyLot (rates : List ParkingRate) : LotState :=
  ⟨[], [], [], 1, buildRates rates⟩

/-- A freshly initialized lot. -/
def initState (floors : Nat) (cfg : SpotsPerFloor) (rates : List ParkingRate) : LotState :=
  initLot (emptyLot rates) floors cfg

/-- Modelled from the claim's words (not from the source): spot identifiers
assigned by a per-class running counter with class-prefixed sequential
numbering — within each class, spots are numbered 1, 2, 3, … in creation
order, independently of the other classes.  Listed in the source's creation
order (floor by floor; motorcycle, then compact, then large). -/
def perClassCounterIds (floors : Nat) (cfg : SpotsPerFloor) : List String :=
  (List.range floors).flatMap (fun fi =>
    (List.range' (fi * cfg.motorcycle + 1) cfg.motorcycle).map
      (fun k => "M" ++ natDecimal k) ++
    (List.range' (fi * cfg.compact + 1) cfg.compact).map
      (fun k => "C" ++ natDecimal k) ++
    (List.range' (fi * cfg.large + 1) cfg.large).map
      (fun k => "L" ++ natDecimal k))

/-! ## Reachability -/

/-- One public operation of the service/allocator surface. -/
inductive Step : LotState → LotState → Prop where
  | checkIn (st : LotState) (v : Vehicle) (now : Int) : Step st (checkInVehicle st v now).2
  | checkOut (st : LotState) (plate : String) (now : Int) : Step st (checkOutVehicle st plate now).2
  | alloc (st : LotState) (vt : VehicleType) (lic : String) : Step st (allocateSpot st vt lic).2
  | rel (st : LotState) (spotId : String) : Step st (releaseSpot st spotId).2

/-- States reachable from an initialized lot by any sequence of public
operations (check-in, check-out, raw allocate, raw release). -/
inductive Reachable : LotState → Prop where
  | init (floors : Nat) (cfg : SpotsPerFloor) (rates : List ParkingRate) :
      Reachable (initState floors cfg rates)
  | step {st st' : LotState} : Reachable st → Step st st' → Reachable st'

/-- One public operation, excluding raw `release`. -/
inductive StepNR : LotState → LotState → Prop where
  | checkIn (st : LotState) (v : Vehicle) (now : Int) : StepNR st (checkInVehicle st v now).2
  | checkOut (st : LotState) (plate : String) (now : Int) : StepNR st (checkOutVehicle st plate now).2
  | alloc (st : LotState) (vt : VehicleType) (lic : String) : StepNR st (allocateSpot st vt lic).2

/-- States reachable without raw `release`. -/
inductive ReachableNR : LotState → Prop where
  | init (floors : Nat) (cfg : SpotsPerFloor) (rates : List ParkingRate) :
      ReachableNR (initState floors cfg rates)
  | step {st st' : LotState} : ReachableNR st → StepNR st st' → ReachableNR st'

/-! ## Invariants -/

/-- The spot ids referenced by the active tickets, in store order. -/
def activeSpotIds (tickets : List ParkingTicket) : List String :=
  (tickets.filter (fun t => t.isActive)).map (·.spotId)

/-- Spot/ticket consistency: every active ticket references an existing,
occupied spot, and no two distinct active tickets reference the same spot. -/
def SpotTicketInv (st : LotState) : Prop :=
  (∀ t ∈ st.tickets, t.isActive = true →
    (∃ s ∈ st.spots, s.id = t.spotId) ∧
    (∀ s ∈ st.spots, s.id = t.spotId → s.isAvailable = false)) ∧
  (activeSpotIds st.tickets).Nodup

/-- Ticket two-state discipline: active (exit time and fee unset) or
completed (both set), never a partial state. -/
def TicketStateInv (st : LotState) : Prop :=
  ∀ t ∈ st.tickets,
    (t.exitTime = none ∧ t.fee = none) ∨
    ((∃ e, t.exitTime = some e) ∧ (∃ f, t.fee = some f))



/-! ## Concrete demonstration data

Small concrete lots and vehicles used to exhibit behaviour at explicit
inputs. -/

/-- A small motorcycle. -/
def wV1 : Vehicle := ⟨"V1", .MOTORCYCLE⟩

/-- A second small motorcycle. -/
def wV2 : Vehicle := ⟨"V2", .MOTORCYCLE⟩

/-- A car. -/
def carV : Vehicle := ⟨"CAR-1", .CAR⟩

/-- A one-floor lot with a single motorcycle spot `M1`. -/
def oneSpotLot : LotState := initState 1 ⟨1, 0, 0⟩ defaultRates

/-- `oneSpotLot` after checking `wV1` in at time 0 (ticket `T000001`,
spot `M1`). -/
def parkedLot : LotState := (checkInVehicle oneSpotLot wV1 0).2

/-- The active ticket created in `parkedLot`. -/
def wT1 : ParkingTicket := ⟨"T000001", wV1, "M1", 0, none, none⟩

/-- `parkedLot` after a raw `releaseSpot` of `M1` (the ticket of `wV1` is
still active). -/
def relLot : LotState := (releaseSpot parkedLot "M1").2

/-- `relLot` after checking `wV2` in: two active tickets now reference
spot `M1`. -/
def doubleLot : LotState := (checkInVehicle relLot wV2 0).2

/-- A one-floor lot with one compact spot `C1` and one large spot `L2`. -/
def compactLot : LotState := initState 1 ⟨0, 1, 1⟩ defaultRates

/-- The compact spot of `compactLot`. -/
def c1Spot : ParkingSpot := ⟨"C1", 1, .COMPACT, true, none⟩

/-! ## Comparator lemmas -/

theorem strLeChars_refl : ∀ l : List Char, strLeChars l l = true
  | [] => rfl
  | a :: as => by
    simp only [strLeChars, lt_irrefl, if_false]
    exact strLeChars_refl as

theorem strLeChars_total : ∀ l1 l2 : List Char,
    strLeChars l1 l2 = true ∨ strLeChars l2 l1 = true
  | [], _ => Or.inl rfl
  | _ :: _, [] => Or.inr rfl
  | a :: as, b :: bs => by
    have ih := strLeChars_total as bs
    simp only [strLeChars]
    split_ifs with h1 h2 <;>
      first
        | exact Or.inl rfl
        | exact Or.inr rfl
        | exact ih
        | omega

theorem strLeChars_head_le {a b : Char} {as bs : List Char}
    (h : strLeChars (a :: as) (b :: bs) = true) : a.toNat ≤ b.toNat := by
  simp only [strLeChars] at h
  split_ifs at h with h1 h2 <;> omega

theorem strLeChars_trans : ∀ l1 l2 l3 : List Char,
    strLeChars l1 l2 = true → strLeChars l2 l3 = true → strLeChars l1 l3 = true
  | [], _, _, _, _ => rfl
  | _ :: _, [], _, h1, _ => absurd h1 (by simp [strLeChars])
  | _ :: _, _ :: _, [], _, h2 => absurd h2 (by simp [strLeChars])
  | a :: as, b :: bs, c :: cs, h1, h2 => by
    have hab := strLeChars_head_le h1
    have hbc := strLeChars_head_le h2
    by_cases hac : a.toNat < c.toNat
    · simp only [strLeChars, if_pos hac]
    · have hca : ¬ c.toNat < a.toNat := by omega
      have e1 : ¬ a.toNat < b.toNat := by omega
      have e2 : ¬ b.toNat < a.toNat := by omega
      have e3 : ¬ b.toNat < c.toNat := by omega
      have e4 : ¬ c.toNat < b.toNat := by omega
      simp only [strLeChars, if_neg e1, if_neg e2] at h1
      simp only [strLeChars, if_neg e3, if_neg e4] at h2
      simp only [strLeChars, if_neg hac, if_neg hca]
      exact strLeChars_trans as bs cs h1 h2

theorem spotOrderB_refl (a : ParkingSpot) : spotOrderB a a = true := by
  simp [spotOrderB, idLe, strLeChars_refl]

theorem spotOrderB_total (a b : ParkingSpot) :
    spotOrderB a b = true ∨ spotOrderB b a = true := by
  unfold spotOrderB
  by_cases h : a.floor = b.floor
  · rw [if_neg (not_not_intro h), if_neg (not_not_intro h.symm)]
    exact strLeChars_total a.id.data b.id.data
  · rw [if_pos h, if_pos (Ne.symm h)]
    simp only [decide_eq_true_eq]
    omega

theorem spotOrderB_trans (a b c : ParkingSpot)
    (h1 : spotOrderB a b = true) (h2 : spotOrderB b c = true) :
    spotOrderB a c = true := by
  unfold spotOrderB at *
  by_cases hab : a.floor = b.floor <;> by_cases hbc : b.floor = c.floor
  · rw [if_neg (not_not_intro hab)] at h1
    rw [if_neg (not_not_intro hbc)] at h2
    rw [if_neg (not_not_intro (hab.trans hbc))]
    exact strLeChars_trans _ _ _ h1 h2
  · rw [if_neg (not_not_intro hab)] at h1
    rw [if_pos hbc] at h2
    have hac : a.floor ≠ c.floor := fun he => hbc (hab ▸ he)
    rw [if_pos hac]
    simp only [decide_eq_true_eq] at h2 ⊢
    omega
  · rw [if_pos hab] at h1
    rw [if_neg (not_not_intro hbc)] at h2
    have hac : a.floor ≠ c.floor := fun he => hab (he ▸ hbc.symm)
    rw [if_pos hac]
    simp only [decide_eq_true_eq] at h1 ⊢
    omega
  · rw [if_pos hab] at h1
    rw [if_pos hbc] at h2
    simp only [decide_eq_true_eq] at h1 h2
    have hac : a.floor ≠ c.floor := by omega
    rw [if_pos hac]
    simp only [decide_eq_true_eq]
    omega

instance : IsTotal ParkingSpot spotLE :=
  ⟨fun a b => spotOrderB_total a b⟩

instance : IsTrans ParkingSpot spotLE :=
  ⟨fun a b c => spotOrderB_trans a b c⟩

/-! ## Characterization of `allocateSpot` -/

theorem mem_candidates {st : LotState} {vt : VehicleType} {s : ParkingSpot} :
    s ∈ candidates st vt ↔ s ∈ st.spots ∧ s.isAvailable = true ∧ s.canFit vt = true := by
  constructor
  · intro h
    have h2 := List.mem_filter.mp h
    have h3 := List.mem_filter.mp h2.1
    exact ⟨h3.1, h3.2, h2.2⟩
  · intro ⟨h1, h2, h3⟩
    exact List.mem_filter.mpr ⟨List.mem_filter.mpr ⟨h1, h2⟩, h3⟩

theorem occupy_of_available {s : ParkingSpot} (h : s.isAvailable = true)
    (lic : String) : s.occupy lic = .ok (occupiedBy s lic) := by
  simp [ParkingSpot.occupy, h, occupiedBy]

theorem allocateSpot_nil (st : LotState) (vt : VehicleType) (lic : String)
    (hs : (candidates st vt).insertionSort spotLE = []) :
    allocateSpot st vt lic = (none, st) := by
  unfold allocateSpot
  rw [hs]

theorem allocateSpot_cons (st : LotState) (vt : VehicleType) (lic : String)
    (s : ParkingSpot) (rest : List ParkingSpot)
    (hs : (candidates st vt).insertionSort spotLE = s :: rest)
    (hav : s.isAvailable = true) :
    allocateSpot st vt lic =
      (some (occupiedBy s lic), { st with spots := updateSpot st.spots (occupiedBy s lic) }) := by
  unfold allocateSpot
  rw [hs]
  simp only [occupy_of_available hav]

theorem sortedCandidates_head_mem {st : LotState} {vt : VehicleType}
    {s : ParkingSpot} {rest : List ParkingSpot}
    (hs : (candidates st vt).insertionSort spotLE = s :: rest) :
    s ∈ candidates st vt := by
  have hp := List.perm_insertionSort spotLE (candidates st vt)
  rw [hs] at hp
  exact hp.mem_iff.mp (List.mem_cons_self s rest)

theorem sortedCandidates_head_min {st : LotState} {vt : VehicleType}
    {s : ParkingSpot} {rest : List ParkingSpot}
    (hs : (candidates st vt).insertionSort spotLE = s :: rest) :
    ∀ t ∈ candidates st vt, spotLE s t := by
  intro t ht
  have hp := List.perm_insertionSort spotLE (candidates st vt)
  rw [hs] at hp
  have hsorted := List.sorted_insertionSort spotLE (candidates st vt)
  rw [hs] at hsorted
  rcases List.mem_cons.mp (hp.mem_iff.mpr ht) with rfl | hmt
  · exact spotOrderB_refl t
  · exact List.rel_of_sorted_cons hsorted t hmt

theorem allocateSpot_none_iff (st : LotState) (vt : VehicleType) (lic : String) :
    (allocateSpot st vt lic).1 = none ↔ candidates st vt = [] := by
  rcases hs : (candidates st vt).insertionSort spotLE with _ | ⟨s, rest⟩
  · have hnil : candidates st vt = [] := by
      have hp := List.perm_insertionSort spotLE (candidates st vt)
      rw [hs] at hp
      exact hp.symm.eq_nil
    rw [allocateSpot_nil st vt lic hs]
    simp [hnil]
  · have hmem := sortedCandidates_head_mem hs
    have hav : s.isAvailable = true := (mem_candidates.mp hmem).2.1
    rw [allocateSpot_cons st vt lic s rest hs hav]
    constructor
    · intro h; exact absurd h (by simp)
    · intro hnil; rw [hnil] at hmem; cases hmem

theorem allocateSpot_some {st : LotState} {vt : VehicleType} {lic : String}
    {s' : ParkingSpot} (h : (allocateSpot st vt lic).1 = some s') :
    ∃ s ∈ candidates st vt,
      (∀ t ∈ candidates st vt, spotLE s t) ∧
      s' = occupiedBy s lic ∧
      (allocateSpot st vt lic).2 = { st with spots := updateSpot st.spots s' } := by
  rcases hs : (candidates st vt).insertionSort spotLE with _ | ⟨s, rest⟩
  · rw [allocateSpot_nil st vt lic hs] at h
    exact absurd h (by simp)
  · have hmem := sortedCandidates_head_mem hs
    have hav : s.isAvailable = true := (mem_candidates.mp hmem).2.1
    rw [allocateSpot_cons st vt lic s rest hs hav] at h ⊢
    have hs' : s' = occupiedBy s lic := by
      simpa using h.symm
    exact ⟨s, hmem, sortedCandidates_head_min hs, hs', by rw [hs']⟩

theorem allocateSpot_none_state (st : LotState) (vt : VehicleType) (lic : String)
    (h : (allocateSpot st vt lic).1 = none) :
    (allocateSpot st vt lic).2 = st := by
  rcases hs : (candidates st vt).insertionSort spotLE with _ | ⟨s, rest⟩
  · rw [allocateSpot_nil st vt lic hs]
  · have hmem := sortedCandidates_head_mem hs
    have hav : s.isAvailable = true := (mem_candidates.mp hmem).2.1
    rw [allocateSpot_cons st vt lic s rest hs hav] at h
    exact absurd h (by simp)

/-- The allocator never touches the ticket store, the index, the counter or
the rates. -/
theorem allocateSpot_frame (st : LotState) (vt : VehicleType) (lic : String) :
    (allocateSpot st vt lic).2.tickets = st.tickets ∧
    (allocateSpot st vt lic).2.activeTicketsByVehicle = st.activeTicketsByVehicle ∧
    (allocateSpot st vt lic).2.ticketCounter = st.ticketCounter ∧
    (allocateSpot st vt lic).2.rates = st.rates := by
  rcases hs : (candidates st vt).insertionSort spotLE with _ | ⟨s, rest⟩
  · rw [allocateSpot_nil st vt lic hs]
    exact ⟨rfl, rfl, rfl, rfl⟩
  · have hmem := sortedCandidates_head_mem hs
    have hav : s.isAvailable = true := (mem_candidates.mp hmem).2.1
    rw [allocateSpot_cons st vt lic s rest hs hav]
    exact ⟨rfl, rfl, rfl, rfl⟩

/-! ## Error-shape helpers -/

theorem calculateFee_error {m : List ParkingRate} {vt : VehicleType} {d : ℚ}
    {e : PError} (h : calculateFee m vt d = .error e) : e = .unknownVehicleClass := by
  unfold calculateFee at h
  rcases hr : rateFor m vt with _ | rate <;> rw [hr] at h
  · exact (Except.error.inj h).symm
  · simp only at h
    split_ifs at h <;> cases h

theorem complete_error {t : ParkingTicket} {et : Int} {f : ℚ} {e : PError}
    (h : t.complete et f = .error e) : e = .alreadyCompleted := by
  unfold ParkingTicket.complete at h
  split_ifs at h <;> cases h
  rfl

theorem releaseSpot_error {st : LotState} {sid : String} {e : PError}
    (h : (releaseSpot st sid).1 = .error e) : e = .spotNotFound := by
  unfold releaseSpot at h
  rcases hg : getSpot st.spots sid with _ | s <;> rw [hg] at h
  · exact (Except.error.inj h).symm
  · cases h

theorem checkIn_parked {st : LotState} {v : Vehicle} {t : ParkingTicket}
    (now : Int) (h : getActiveTicketByVehicle st v.licensePlate = some t) :
    checkInVehicle st v now = (.error .alreadyParked, st) := by
  unfold checkInVehicle
  rw [h]

theorem checkOut_noSession {st : LotState} {plate : String} (now : Int)
    (h : getActiveTicketByVehicle st plate = none) :
    checkOutVehicle st plate now = (.error .noActiveSession, st) := by
  unfold checkOutVehicle
  rw [h]

theorem checkOut_error_ne_noSession {st : LotState} {plate : String}
    {t : ParkingTicket} (now : Int)
    (h : getActiveTicketByVehicle st plate = some t) :
    (checkOutVehicle st plate now).1 ≠ .error .noActiveSession := by
  unfold checkOutVehicle
  rw [h]
  simp only
  rcases hf : calculateFee st.rates t.vehicle.type (t.getDuration now) with e | fee
  · have := calculateFee_error hf
    subst this
    simp
  · simp only
    rcases hc : t.complete now fee with e | t'
    · have := complete_error hc
      subst this
      simp
    · simp only
      rcases hrel : releaseSpot
          (completeTicket { st with tickets := setTicket st.tickets t' } t'.ticketId)
          t'.spotId with ⟨r, st2⟩
      rcases r with e | u
      · have : (releaseSpot
            (completeTicket { st with tickets := setTicket st.tickets t' } t'.ticketId)
            t'.spotId).1 = .error e := by rw [hrel]
        have he := releaseSpot_error this
        subst he
        simp
      · simp

/-! ## Claim C1 — allocation picks the least compatible available spot -/

/-- Claim C1: for every request and store state, `allocateSpot` returns the
spot that is first in (floor ascending, id ascending lexicographic) order
among the currently available spots whose capacity class fits the vehicle
size (small-only fits small; medium-capable fits small+medium; large-capable
fits all), marks exactly that spot occupied-by the vehicle, and returns it;
it returns `none`, leaving the state unchanged, exactly when the candidate
set is empty. -/
theorem claim_C1_allocateSpot (st : LotState) (vt : VehicleType) (lic : String) :
    ((allocateSpot st vt lic).1 = none ↔ candidates st vt = []) ∧
    ((allocateSpot st vt lic).1 = none → (allocateSpot st vt lic).2 = st) ∧
    (∀ s', (allocateSpot st vt lic).1 = some s' →
      ∃ s ∈ candidates st vt,
        (∀ t ∈ candidates st vt, spotLE s t) ∧
        s' = occupiedBy s lic ∧
        (allocateSpot st vt lic).2 = { st with spots := updateSpot st.spots s' }) ∧
    (∀ s : ParkingSpot, ∀ v : VehicleType,
      s.canFit v = true ↔
        (s.spotType = .MOTORCYCLE ∧ v = .MOTORCYCLE) ∨
        (s.spotType = .COMPACT ∧ (v = .MOTORCYCLE ∨ v = .CAR)) ∨
        s.spotType = .LARGE) := by
  refine ⟨allocateSpot_none_iff st vt lic, allocateSpot_none_state st vt lic,
    fun s' h => allocateSpot_some h, ?_⟩
  rintro ⟨id, fl, sty, av, cur⟩ v
  cases sty <;> cases v <;> simp [ParkingSpot.canFit]

/-- Concrete run of Claim C1: on a lot with compact `C1` and large `L2`, a
car is allocated a least compatible candidate. -/
theorem claim_C1_witness :
    ((allocateSpot compactLot .CAR "CAR-1").1 = some (occupiedBy c1Spot "CAR-1")) ∧
    (∃ s ∈ candidates compactLot .CAR,
      (∀ t ∈ candidates compactLot .CAR, spotLE s t) ∧
      occupiedBy c1Spot "CAR-1" = occupiedBy s "CAR-1" ∧
      (allocateSpot compactLot .CAR "CAR-1").2 =
        { compactLot with spots := updateSpot compactLot.spots (occupiedBy c1Spot "CAR-1") }) :=
  ⟨rfl, (claim_C1_allocateSpot compactLot .CAR "CAR-1").2.2.1 (occupiedBy c1Spot "CAR-1") rfl⟩

/-! ## Claim C4 — fee formula and default rate table -/

/-- Claim C4: for every vehicle class with a registered rate and every
duration, `calculateFee` rounds the duration up to whole hours; a ceiling of
at most 1 is charged the base rate, otherwise base rate plus
(ceiling − 1) × hourly rate; and the default table is
small 2.00/1.00, medium 5.00/2.50, large 10.00/5.00. -/
theorem claim_C4_calculateFee (m : List ParkingRate) (vt : VehicleType) (d : ℚ)
    (rate : ParkingRate) (h : rateFor m vt = some rate) :
    (calculateFee m vt d =
      .ok (if ⌈d⌉ ≤ 1 then rate.baseFee
           else rate.baseFee + ((⌈d⌉ - 1 : ℤ) : ℚ) * rate.hourlyRate)) ∧
    rateFor (buildRates defaultRates) .MOTORCYCLE = some ⟨.MOTORCYCLE, 2, 1⟩ ∧
    rateFor (buildRates defaultRates) .CAR = some ⟨.CAR, 5, 5/2⟩ ∧
    rateFor (buildRates defaultRates) .BUS = some ⟨.BUS, 10, 5⟩ := by
  refine ⟨?_, rfl, rfl, rfl⟩
  unfold calculateFee
  rw [h]
  simp only
  split_ifs <;> rfl

/-- Concrete run of Claim C4: the default motorcycle rate is registered and
the fee formula applies to it. -/
theorem claim_C4_witness :
    (rateFor (buildRates defaultRates) .MOTORCYCLE = some ⟨.MOTORCYCLE, 2, 1⟩) ∧
    (calculateFee (buildRates defaultRates) .MOTORCYCLE 1 =
      .ok (if ⌈(1 : ℚ)⌉ ≤ 1 then (2 : ℚ) else 2 + ((⌈(1 : ℚ)⌉ - 1 : ℤ) : ℚ) * 1)) :=
  ⟨rfl,
    (claim_C4_calculateFee (buildRates defaultRates) .MOTORCYCLE 1
      ⟨.MOTORCYCLE, 2, 1⟩ rfl).1⟩

/-! ## Claim C5 — the worked fee examples -/

/-- Counterexample to Claim C5: under the default table, the fee for a car
parked 3.5 hours is not 10.00 (the code charges 3 additional hours, so
12.50). -/
theorem claim_C5_counterexample :
    calculateFee (buildRates defaultRates) .CAR (7/2) ≠ .ok 10 := by
  have hceil : ⌈(7 : ℚ)/2⌉ = 4 := by
    rw [Int.ceil_eq_iff] <;> norm_num
  have hval : calculateFee (buildRates defaultRates) .CAR (7/2) = .ok (25/2) := by
    unfold calculateFee
    have hr : rateFor (buildRates defaultRates) .CAR = some ⟨.CAR, 5, 5/2⟩ := rfl
    rw [hr]
    simp only [hceil]
    norm_num
  rw [hval]
  intro h
  have := Except.ok.inj h
  norm_num at this

/-- Claim C5 as amended: under the default table the fee for a car parked
3.5 hours is 12.50 (base 5.00 + 3 × 2.50), and the fee for a motorcycle
parked 0.5 hours is 2.00 (base only). -/
theorem claim_C5_amended :
    calculateFee (buildRates defaultRates) .CAR (7/2) = .ok (25/2) ∧
    calculateFee (buildRates defaultRates) .MOTORCYCLE (1/2) = .ok 2 := by
  constructor
  · have hceil : ⌈(7 : ℚ)/2⌉ = 4 := by
      rw [Int.ceil_eq_iff] <;> norm_num
    unfold calculateFee
    have hr : rateFor (buildRates defaultRates) .CAR = some ⟨.CAR, 5, 5/2⟩ := rfl
    rw [hr]
    simp only [hceil]
    norm_num
  · have hceil : ⌈(1 : ℚ)/2⌉ = 1 := by
      rw [Int.ceil_eq_iff] <;> norm_num
    unfold calculateFee
    have hr : rateFor (buildRates defaultRates) .MOTORCYCLE = some ⟨.MOTORCYCLE, 2, 1⟩ := rfl
    rw [hr]
    simp only [hceil]
    norm_num

/-! ## Claim C6 — conflict and not-found failures have no side effect -/

/-- Claim C6: a check-in failing with `AlreadyParked` and a check-out
failing with `NoActiveSession` are raised before any mutation: the state
after the failed call is exactly the state before it (in particular, a
second check-in of a parked vehicle allocates no second spot), and the
failures occur exactly when an active session does / does not exist. -/
theorem claim_C6_noSideEffect (st : LotState) (v : Vehicle) (plate : String)
    (now now2 : Int) :
    ((checkInVehicle st v now).1 = .error .alreadyParked →
      (checkInVehicle st v now).2 = st) ∧
    ((getActiveTicketByVehicle st v.licensePlate).isSome = true →
      (checkInVehicle st v now).1 = .error .alreadyParked) ∧
    ((checkOutVehicle st plate now2).1 = .error .noActiveSession →
      (checkOutVehicle st plate now2).2 = st) ∧
    (getActiveTicketByVehicle st plate = none →
      (checkOutVehicle st plate now2).1 = .error .noActiveSession) := by
  refine ⟨?_, ?_, ?_, ?_⟩
  · intro h
    rcases hg : getActiveTicketByVehicle st v.licensePlate with _ | t
    · exfalso
      unfold checkInVehicle at h
      rw [hg] at h
      simp only at h
      rcases ha : allocateSpot st v.type v.licensePlate with ⟨o, st1⟩
      rw [ha] at h
      rcases o with _ | spot <;> simp at h
    · rw [checkIn_parked now hg]
  · intro h
    rcases hg : getActiveTicketByVehicle st v.licensePlate with _ | t
    · rw [hg] at h; cases h
    · rw [checkIn_parked now hg]
  · intro h
    rcases hg : getActiveTicketByVehicle st plate with _ | t
    · rw [checkOut_noSession now2 hg]
    · exact absurd h (checkOut_error_ne_noSession now2 hg)
  · intro h
    rw [checkOut_noSession now2 h]

/-- Concrete run of Claim C6: re-checking-in the parked vehicle `wV1`, and
checking out an unknown plate, both leave `parkedLot` unchanged. -/
theorem claim_C6_witness :
    (checkInVehicle parkedLot wV1 5).2 = parkedLot ∧
    (checkOutVehicle parkedLot "NOPE" 5).2 = parkedLot :=
  ⟨(claim_C6_noSideEffect parkedLot wV1 "NOPE" 5 5).1 rfl,
   (claim_C6_noSideEffect parkedLot wV1 "NOPE" 5 5).2.2.1 rfl⟩

/-! ## Claim C10 — a capacity-exhausted check-in has no side effect -/

/-- Claim C10: whenever `checkInVehicle` returns the `none` result (no
compatible spot available), the state is exactly as before the call: no
occupancy change, no ticket, no index entry, and the ticket counter is not
advanced. -/
theorem claim_C10_checkInNone (st : LotState) (v : Vehicle) (now : Int)
    (h : (checkInVehicle st v now).1 = .ok none) :
    (checkInVehicle st v now).2 = st := by
  rcases hg : getActiveTicketByVehicle st v.licensePlate with _ | t
  · unfold checkInVehicle at h ⊢
    rw [hg] at h ⊢
    simp only at h ⊢
    rcases ha : allocateSpot st v.type v.licensePlate with ⟨o, st1⟩
    rw [ha] at h
    rcases o with _ | spot
    · have h1 : (allocateSpot st v.type v.licensePlate).1 = none := by rw [ha]
      have h2 := allocateSpot_none_state st v.type v.licensePlate h1
      rw [ha] at h2
      exact h2
    · exact Option.noConfusion (Except.ok.inj h)
  · rw [checkIn_parked now hg] at h
    cases h

/-- Concrete run of Claim C10: checking a car into a lot with no compatible
spot returns `none` and changes nothing. -/
theorem claim_C10_witness :
    (checkInVehicle oneSpotLot carV 0).2 = oneSpotLot :=
  claim_C10_checkInNone oneSpotLot carV 0 rfl

/-! ## Claim C7 — release: NotFound iff absent, otherwise unconditional -/

/-- Claim C7: `releaseSpot` fails with NotFound exactly when no spot with
the given identifier exists, leaving the state unchanged; if the spot
exists it succeeds whether or not the spot is occupied (double release is
accepted), and afterwards the spot is available with its occupant cleared
while every other spot is unchanged; the ticket store, index and counter
are never touched. -/
theorem claim_C7_releaseSpot (st : LotState) (sid : String) :
    ((releaseSpot st sid).1 = .error .spotNotFound ↔ ∀ s ∈ st.spots, s.id ≠ sid) ∧
    ((releaseSpot st sid).1 = .error .spotNotFound → (releaseSpot st sid).2 = st) ∧
    (∀ s, getSpot st.spots sid = some s →
      (releaseSpot st sid).1 = .ok () ∧
      (releaseSpot st sid).2.spots =
        st.spots.map (fun x => if x.id == sid then s.release else x)) ∧
    ((releaseSpot st sid).2.tickets = st.tickets ∧
     (releaseSpot st sid).2.activeTicketsByVehicle = st.activeTicketsByVehicle ∧
     (releaseSpot st sid).2.ticketCounter = st.ticketCounter) := by
  rcases hg : getSpot st.spots sid with _ | s
  · have habs : ∀ s ∈ st.spots, s.id ≠ sid := by
      intro s hs he
      have := List.find?_eq_none.mp hg s hs
      simp [he] at this
    unfold releaseSpot
    rw [hg]
    refine ⟨⟨fun _ => habs, fun _ => rfl⟩, fun _ => rfl, ?_, rfl, rfl, rfl⟩
    intro s hsome
    cases hsome
  · have hsid : s.id = sid := by
      have := List.find?_some hg
      simpa using this
    have hmem : s ∈ st.spots := List.mem_of_find?_eq_some hg
    unfold releaseSpot
    rw [hg]
    refine ⟨⟨fun h => ?_, fun h => absurd (h s hmem) (not_not_intro hsid)⟩,
      fun h => ?_, ?_, rfl, rfl, rfl⟩
    · cases h
    · cases h
    · intro s2 hsome
      cases hsome
      refine ⟨rfl, ?_⟩
      show updateSpot st.spots s.release = _
      unfold updateSpot
      apply List.map_congr_left
      intro x _
      have : (ParkingSpot.release s).id = s.id := rfl
      rw [this, hsid]

/-- Concrete run of Claim C7: releasing `M1` in `parkedLot` succeeds and
clears it; releasing it again also succeeds (double release accepted);
releasing an unknown id fails with NotFound and changes nothing. -/
theorem claim_C7_witness :
    ((releaseSpot parkedLot "M1").1 = .ok () ∧
      (releaseSpot parkedLot "M1").2.spots =
        parkedLot.spots.map (fun x =>
          if x.id == "M1" then
            ParkingSpot.release ⟨"M1", 1, .MOTORCYCLE, false, some "V1"⟩
          else x)) ∧
    ((releaseSpot relLot "M1").1 = .ok ()) ∧
    ((releaseSpot parkedLot "ZZ").1 = .error .spotNotFound →
        (releaseSpot parkedLot "ZZ").2 = parkedLot) ∧
    (releaseSpot parkedLot "ZZ").1 = .error .spotNotFound :=
  ⟨(claim_C7_releaseSpot parkedLot "M1").2.2.1
      ⟨"M1", 1, .MOTORCYCLE, false, some "V1"⟩ rfl,
   ((claim_C7_releaseSpot relLot "M1").2.2.1
      ⟨"M1", 1, .MOTORCYCLE, true, none⟩ rfl).1,
   (claim_C7_releaseSpot parkedLot "ZZ").2.1,
   (claim_C7_releaseSpot parkedLot "ZZ").1.mpr (by decide)⟩

/-! ## Operation characterizations and frame lemmas -/

theorem releaseSpot_frame (st : LotState) (sid : String) :
    (releaseSpot st sid).2.tickets = st.tickets ∧
    (releaseSpot st sid).2.activeTicketsByVehicle = st.activeTicketsByVehicle ∧
    (releaseSpot st sid).2.ticketCounter = st.ticketCounter ∧
    (releaseSpot st sid).2.rates = st.rates := by
  unfold releaseSpot
  rcases hg : getSpot st.spots sid with _ | s <;> exact ⟨rfl, rfl, rfl, rfl⟩

theorem completeTicket_frame (st : LotState) (tid : String) :
    (completeTicket st tid).tickets = st.tickets ∧
    (completeTicket st tid).spots = st.spots ∧
    (completeTicket st tid).ticketCounter = st.ticketCounter ∧
    (completeTicket st tid).rates = st.rates := by
  unfold completeTicket
  rcases hg : lookupTicket st.tickets tid with _ | t <;> exact ⟨rfl, rfl, rfl, rfl⟩

theorem mem_setTicket : ∀ {l : List ParkingTicket} {t x : ParkingTicket},
    x ∈ setTicket l t → x = t ∨ x ∈ l
  | [], t, x, h => by simpa [setTicket] using h
  | y :: l, t, x, h => by
    unfold setTicket at h
    by_cases hb : (y.ticketId == t.ticketId) = true
    · rw [if_pos hb] at h
      rcases List.mem_cons.mp h with h1 | h2
      · exact Or.inl h1
      · exact Or.inr (List.mem_cons_of_mem y h2)
    · rw [if_neg hb] at h
      rcases List.mem_cons.mp h with h1 | h2
      · exact Or.inr (h1 ▸ List.mem_cons_self y l)
      · rcases mem_setTicket h2 with h3 | h4
        · exact Or.inl h3
        · exact Or.inr (List.mem_cons_of_mem y h4)

theorem complete_ok {t : ParkingTicket} {et : Int} {f : ℚ} {t' : ParkingTicket}
    (h : t.complete et f = .ok t') :
    t' = { t with exitTime := some et, fee := some f } ∧ t.isActive = true := by
  unfold ParkingTicket.complete at h
  split_ifs at h with hA
  exact ⟨(Except.ok.inj h).symm, hA⟩

theorem checkIn_success {st st1 : LotState} {v : Vehicle} {spot : ParkingSpot}
    (now : Int)
    (hg : getActiveTicketByVehicle st v.licensePlate = none)
    (ha : allocateSpot st v.type v.licensePlate = (some spot, st1)) :
    checkInVehicle st v now =
      (.ok (some ⟨generateTicketId st1.ticketCounter, v, spot.id, now, none, none⟩),
       addTicket { st1 with ticketCounter := st1.ticketCounter + 1 }
         ⟨generateTicketId st1.ticketCounter, v, spot.id, now, none, none⟩) := by
  unfold checkInVehicle
  rw [hg]
  simp only
  rw [ha]

theorem checkIn_allocNone {st st1 : LotState} {v : Vehicle} (now : Int)
    (hg : getActiveTicketByVehicle st v.licensePlate = none)
    (ha : allocateSpot st v.type v.licensePlate = (none, st1)) :
    checkInVehicle st v now = (.ok none, st1) := by
  unfold checkInVehicle
  rw [hg]
  simp only
  rw [ha]

theorem checkOut_feeError {st : LotState} {plate : String} {t : ParkingTicket}
    {e : PError} (now : Int)
    (hg : getActiveTicketByVehicle st plate = some t)
    (hf : calculateFee st.rates t.vehicle.type (t.getDuration now) = .error e) :
    checkOutVehicle st plate now = (.error e, st) := by
  unfold checkOutVehicle
  rw [hg]
  simp only
  rw [hf]

theorem checkOut_completeError {st : LotState} {plate : String}
    {t : ParkingTicket} {fee : ℚ} {e : PError} (now : Int)
    (hg : getActiveTicketByVehicle st plate = some t)
    (hf : calculateFee st.rates t.vehicle.type (t.getDuration now) = .ok fee)
    (hc : t.complete now fee = .error e) :
    checkOutVehicle st plate now = (.error e, st) := by
  unfold checkOutVehicle
  rw [hg]
  simp only
  rw [hf]
  simp only
  rw [hc]

theorem checkOut_success {st : LotState} {plate : String} {t t' : ParkingTicket}
    {fee : ℚ} (now : Int)
    (hg : getActiveTicketByVehicle st plate = some t)
    (hf : calculateFee st.rates t.vehicle.type (t.getDuration now) = .ok fee)
    (hc : t.complete now fee = .ok t') :
    checkOutVehicle st plate now =
      (match releaseSpot (completeTicket { st with tickets := setTicket st.tickets t' }
          t'.ticketId) t'.spotId with
       | (.error e, st2) => (.error e, st2)
       | (.ok _, st2) => (.ok t', st2)) := by
  unfold checkOutVehicle
  rw [hg]
  simp only
  rw [hf]
  simp only
  rw [hc]

theorem checkOut_state_tickets {st : LotState} {plate : String}
    {t t' : ParkingTicket} {fee : ℚ} (now : Int)
    (hg : getActiveTicketByVehicle st plate = some t)
    (hf : calculateFee st.rates t.vehicle.type (t.getDuration now) = .ok fee)
    (hc : t.complete now fee = .ok t') :
    (checkOutVehicle st plate now).2.tickets = setTicket st.tickets t' := by
  rw [checkOut_success now hg hf hc]
  rcases hr : releaseSpot (completeTicket { st with tickets := setTicket st.tickets t' }
      t'.ticketId) t'.spotId with ⟨r, st2⟩
  have h2 : st2.tickets = setTicket st.tickets t' := by
    have hfr := (releaseSpot_frame (completeTicket
      { st with tickets := setTicket st.tickets t' } t'.ticketId) t'.spotId).1
    rw [hr] at hfr
    rw [hfr]
    exact (completeTicket_frame { st with tickets := setTicket st.tickets t' } t'.ticketId).1
  rcases r with e | u <;> simpa using h2

/-! ## Claim C8 — ticket lifecycle invariant -/

theorem TicketStateInv_congr {st st' : LotState}
    (he : st'.tickets = st.tickets) (h : TicketStateInv st) : TicketStateInv st' := by
  unfold TicketStateInv at *
  rw [he]
  exact h

theorem TicketStateInv_step {st st' : LotState} (h : TicketStateInv st)
    (hs : Step st st') : TicketStateInv st' := by
  cases hs with
  | checkIn v now =>
    rcases hg : getActiveTicketByVehicle st v.licensePlate with _ | t0
    · rcases ha : allocateSpot st v.type v.licensePlate with ⟨o, st1⟩
      have hfr := (allocateSpot_frame st v.type v.licensePlate).1
      rw [ha] at hfr
      rcases o with _ | spot
      · rw [checkIn_allocNone now hg ha]
        exact TicketStateInv_congr hfr h
      · rw [checkIn_success now hg ha]
        intro x hx
        rcases mem_setTicket hx with rfl | hx2
        · exact Or.inl ⟨rfl, rfl⟩
        · exact h x (hfr ▸ hx2)
    · rw [checkIn_parked now hg]
      exact h
  | checkOut plate now =>
    rcases hg : getActiveTicketByVehicle st plate with _ | t
    · rw [checkOut_noSession now hg]
      exact h
    · rcases hf : calculateFee st.rates t.vehicle.type (t.getDuration now) with e | fee
      · rw [checkOut_feeError now hg hf]
        exact h
      · rcases hc : t.complete now fee with e | t'
        · rw [checkOut_completeError now hg hf hc]
          exact h
        · have htk := checkOut_state_tickets now hg hf hc
          intro x hx
          rw [htk] at hx
          rcases mem_setTicket hx with rfl | hx2
          · rcases complete_ok hc with ⟨rfl, _⟩
            exact Or.inr ⟨⟨now, rfl⟩, ⟨fee, rfl⟩⟩
          · exact h x hx2
  | alloc vt lic =>
    exact TicketStateInv_congr (allocateSpot_frame st vt lic).1 h
  | rel sid =>
    exact TicketStateInv_congr (releaseSpot_frame st sid).1 h

/-- Claim C8: in every reachable state every ticket is either active (exit
timestamp and fee both unset) or completed (both set), never partial; and
completing an already-completed ticket fails with an error and changes
nothing. -/
theorem claim_C8_ticketLifecycle :
    (∀ st, Reachable st → TicketStateInv st) ∧
    (∀ (t : ParkingTicket) (et : Int) (f : ℚ), t.isActive = false →
      t.complete et f = .error .alreadyCompleted) := by
  constructor
  · intro st hr
    induction hr with
    | init floors cfg rates =>
      intro t ht
      have he : (initState floors cfg rates).tickets = [] := rfl
      rw [he] at ht
      cases ht
    | step hr hstep ih =>
      exact TicketStateInv_step ih hstep
  · intro t et f hA
    unfold ParkingTicket.complete
    rw [hA]
    rfl

/-- Concrete run of Claim C8: the invariant holds in `parkedLot` (reachable
by one check-in), and completing an already completed ticket fails. -/
theorem claim_C8_witness :
    TicketStateInv parkedLot ∧
    ParkingTicket.complete ⟨"T000001", wV1, "M1", 0, some 5, some 2⟩ 9 3 =
      .error .alreadyCompleted :=
  ⟨claim_C8_ticketLifecycle.1 parkedLot
    (Reachable.step (Reachable.init 1 ⟨1, 0, 0⟩ defaultRates)
      (Step.checkIn oneSpotLot wV1 0)),
   claim_C8_ticketLifecycle.2 ⟨"T000001", wV1, "M1", 0, some 5, some 2⟩ 9 3 rfl⟩

/-! ## Lemmas about active tickets and spot updates -/

theorem activeSpotIds_cons (y : ParkingTicket) (l : List ParkingTicket) :
    activeSpotIds (y :: l) =
      if y.isActive = true then y.spotId :: activeSpotIds l else activeSpotIds l := by
  by_cases hy : y.isActive = true <;>
    simp [activeSpotIds, List.filter_cons, hy]

theorem mem_activeSpotIds {I : String} {l : List ParkingTicket} :
    I ∈ activeSpotIds l ↔ ∃ x ∈ l, x.isActive = true ∧ x.spotId = I := by
  simp [activeSpotIds, List.mem_map, List.mem_filter]
  constructor
  · rintro ⟨x, ⟨hx, ha⟩, hs⟩
    exact ⟨x, hx, ha, hs⟩
  · rintro ⟨x, hx, ha, hs⟩
    exact ⟨x, ⟨hx, ha⟩, hs⟩

theorem activeSpotIds_setTicket_inactive {t : ParkingTicket}
    (ht : t.isActive = false) :
    ∀ l : List ParkingTicket,
      (activeSpotIds (setTicket l t)).Sublist (activeSpotIds l)
  | [] => by
    show (activeSpotIds [t]).Sublist (activeSpotIds [])
    rw [activeSpotIds_cons]
    simp [ht, activeSpotIds]
  | y :: l => by
    unfold setTicket
    by_cases hb : (y.ticketId == t.ticketId) = true
    · rw [if_pos hb, activeSpotIds_cons, activeSpotIds_cons]
      rw [ht]
      simp only [Bool.false_eq_true, if_false]
      by_cases hy : y.isActive = true
      · rw [if_pos hy]
        exact (List.sublist_cons_self _ _)
      · rw [if_neg hy]
    · rw [if_neg hb, activeSpotIds_cons, activeSpotIds_cons]
      by_cases hy : y.isActive = true
      · rw [if_pos hy, if_pos hy]
        exact (activeSpotIds_setTicket_inactive ht l).cons₂ y.spotId
      · rw [if_neg hy, if_neg hy]
        exact activeSpotIds_setTicket_inactive ht l

theorem mem_activeSpotIds_setTicket {I : String} {l : List ParkingTicket}
    {t : ParkingTicket} (h : I ∈ activeSpotIds (setTicket l t)) :
    I = t.spotId ∨ I ∈ activeSpotIds l := by
  rcases mem_activeSpotIds.mp h with ⟨x, hx, ha, hs⟩
  rcases mem_setTicket hx with rfl | hx2
  · exact Or.inl hs.symm
  · exact Or.inr (mem_activeSpotIds.mpr ⟨x, hx2, ha, hs⟩)

theorem activeSpotIds_setTicket_active {t : ParkingTicket}
    (ht : t.isActive = true) :
    ∀ l : List ParkingTicket,
      (∀ t0 ∈ l, t0.isActive = true → t0.spotId ≠ t.spotId) →
      (activeSpotIds l).Nodup → (activeSpotIds (setTicket l t)).Nodup
  | [], _, _ => by
    show (activeSpotIds [t]).Nodup
    rw [activeSpotIds_cons, if_pos ht]
    simp [activeSpotIds]
  | y :: l, hfresh, hn => by
    rw [activeSpotIds_cons] at hn
    unfold setTicket
    by_cases hb : (y.ticketId == t.ticketId) = true
    · rw [if_pos hb, activeSpotIds_cons, if_pos ht]
      have htail : (activeSpotIds l).Nodup := by
        by_cases hy : y.isActive = true
        · rw [if_pos hy] at hn
          exact hn.of_cons
        · rwa [if_neg hy] at hn
      refine List.nodup_cons.mpr ⟨?_, htail⟩
      intro hmem
      rcases mem_activeSpotIds.mp hmem with ⟨x, hx, ha, hs⟩
      exact hfresh x (List.mem_cons_of_mem y hx) ha hs
    · rw [if_neg hb, activeSpotIds_cons]
      have hrec := activeSpotIds_setTicket_active ht l
        (fun t0 h0 => hfresh t0 (List.mem_cons_of_mem y h0))
      by_cases hy : y.isActive = true
      · rw [if_pos hy] at hn ⊢
        refine List.nodup_cons.mpr ⟨?_, hrec hn.of_cons⟩
        intro hmem
        rcases mem_activeSpotIds_setTicket hmem with he | hmem2
        · exact hfresh y (List.mem_cons_self y l) hy he
        · exact (List.nodup_cons.mp hn).1 hmem2
      · rw [if_neg hy] at hn ⊢
        exact hrec hn

theorem spotId_not_in_setTicket {tid : String} {t t' : ParkingTicket}
    (ht : t.isActive = true) (ht' : t'.isActive = false)
    (hid : t'.ticketId = tid) :
    ∀ l : List ParkingTicket, (activeSpotIds l).Nodup →
      lookupTicket l tid = some t →
      t.spotId ∉ activeSpotIds (setTicket l t')
  | [], _, hl => by cases hl
  | y :: l, hn, hl => by
    rw [activeSpotIds_cons] at hn
    unfold setTicket
    unfold lookupTicket at hl
    rw [List.find?_cons] at hl
    by_cases hb : (y.ticketId == tid) = true
    · rw [hb] at hl
      have hyt : y = t := Option.some.inj hl
      subst hyt
      rw [if_pos (by rw [hid]; exact hb), activeSpotIds_cons]
      rw [ht']
      simp only [Bool.false_eq_true, if_false]
      rw [if_pos ht] at hn
      exact (List.nodup_cons.mp hn).1
    · rw [Bool.not_eq_true] at hb
      rw [hb] at hl
      have hl' : lookupTicket l tid = some t := hl
      rw [if_neg (show ¬(y.ticketId == t'.ticketId) = true by rw [hid, hb]; simp),
        activeSpotIds_cons]
      have hmemt : t ∈ l := List.mem_of_find?_eq_some hl'
      by_cases hy : y.isActive = true
      · rw [if_pos hy] at hn ⊢
        intro hmem
        rcases List.mem_cons.mp hmem with he | hmem2
        · have : t.spotId ∈ activeSpotIds l :=
            mem_activeSpotIds.mpr ⟨t, hmemt, ht, rfl⟩
          rw [he] at this
          exact (List.nodup_cons.mp hn).1 this
        · exact spotId_not_in_setTicket ht ht' hid l (List.nodup_cons.mp hn).2 hl' hmem2
      · rw [if_neg hy] at hn ⊢
        exact spotId_not_in_setTicket ht ht' hid l hn hl'

theorem updateSpot_mem_cases {spots : List ParkingSpot} {s x : ParkingSpot}
    (h : x ∈ updateSpot spots s) : x = s ∨ (x ∈ spots ∧ x.id ≠ s.id) := by
  rcases List.mem_map.mp h with ⟨y, hy, he⟩
  by_cases hb : (y.id == s.id) = true
  · rw [if_pos hb] at he
    exact Or.inl he.symm
  · rw [if_neg hb] at he
    subst he
    exact Or.inr ⟨hy, fun hc => hb (beq_iff_eq.mpr hc)⟩

theorem updateSpot_ids (spots : List ParkingSpot) (s : ParkingSpot) :
    (updateSpot spots s).map (·.id) = spots.map (·.id) := by
  unfold updateSpot
  rw [List.map_map]
  apply List.map_congr_left
  intro y _
  by_cases hb : (y.id == s.id) = true
  · simp only [Function.comp_apply, if_pos hb]
    exact (beq_iff_eq.mp hb).symm
  · simp only [Function.comp_apply, if_neg hb]

theorem exists_id_iff_mem_map {l : List ParkingSpot} {I : String} :
    (∃ x ∈ l, x.id = I) ↔ I ∈ l.map (·.id) := by
  simp [List.mem_map]

theorem getActive_some {st : LotState} {plate : String} {t : ParkingTicket}
    (h : getActiveTicketByVehicle st plate = some t) :
    t ∈ st.tickets ∧ lookupTicket st.tickets t.ticketId = some t := by
  unfold getActiveTicketByVehicle at h
  rcases hi : indexLookup st.activeTicketsByVehicle plate with _ | tid <;> rw [hi] at h
  · cases h
  · have h' : List.find? (fun x => x.ticketId == tid) st.tickets = some t := h
    have hmem : t ∈ st.tickets := List.mem_of_find?_eq_some h'
    have hfs := List.find?_some h'
    have hteq : t.ticketId = tid := beq_iff_eq.mp hfs
    rw [hteq]
    exact ⟨hmem, h⟩

/-! ## Claim C2 — spot/ticket consistency -/

theorem SpotTicketInv_of (spots : List ParkingSpot) (tickets : List ParkingTicket)
    (hpart : ∀ t ∈ tickets, t.isActive = true →
      (∃ s ∈ spots, s.id = t.spotId) ∧
      (∀ s ∈ spots, s.id = t.spotId → s.isAvailable = false))
    (hnd : (activeSpotIds tickets).Nodup)
    {st : LotState} (hsp : st.spots = spots) (htk : st.tickets = tickets) :
    SpotTicketInv st := by
  unfold SpotTicketInv
  rw [hsp, htk]
  exact ⟨hpart, hnd⟩

theorem SpotTicketInv_updateOccupied {st : LotState} (h : SpotTicketInv st)
    (s' : ParkingSpot) (hunav : s'.isAvailable = false)
    {tickets : List ParkingTicket} (htk : tickets = st.tickets) :
    ∀ t ∈ tickets, t.isActive = true →
      (∃ x ∈ updateSpot st.spots s', x.id = t.spotId) ∧
      (∀ x ∈ updateSpot st.spots s', x.id = t.spotId → x.isAvailable = false) := by
  subst htk
  obtain ⟨hpart, _⟩ := h
  intro t ht hact
  have hold := hpart t ht hact
  constructor
  · refine exists_id_iff_mem_map.mpr ?_
    rw [updateSpot_ids]
    exact exists_id_iff_mem_map.mp hold.1
  · intro x hx hxid
    rcases updateSpot_mem_cases hx with rfl | ⟨hxmem, hxne⟩
    · exact hunav
    · exact hold.2 x hxmem hxid

theorem SpotTicketInv_stepNR {st st' : LotState} (h : SpotTicketInv st)
    (hs : StepNR st st') : SpotTicketInv st' := by
  obtain ⟨hpart, hnodup⟩ := h
  cases hs with
  | alloc vt lic =>
    rcases ho : (allocateSpot st vt lic).1 with _ | s'
    · rw [allocateSpot_none_state st vt lic ho]
      exact ⟨hpart, hnodup⟩
    · obtain ⟨s, hsmem, hmin, rfl, hst2⟩ := allocateSpot_some ho
      rw [hst2]
      exact SpotTicketInv_of (updateSpot st.spots (occupiedBy s lic)) st.tickets
        (SpotTicketInv_updateOccupied ⟨hpart, hnodup⟩ (occupiedBy s lic) rfl rfl)
        hnodup rfl rfl
  | checkIn v now =>
    rcases hg : getActiveTicketByVehicle st v.licensePlate with _ | t0
    · rcases ha : allocateSpot st v.type v.licensePlate with ⟨o, st1⟩
      rcases o with _ | spot
      · rw [checkIn_allocNone now hg ha]
        have h1 : (allocateSpot st v.type v.licensePlate).1 = none := by rw [ha]
        have h2 : st1 = st := by
          have h3 := allocateSpot_none_state st v.type v.licensePlate h1
          rw [ha] at h3
          exact h3
        rw [h2]
        exact ⟨hpart, hnodup⟩
      · obtain ⟨s, hsmem, hmin, hocc, hst2⟩ :=
          allocateSpot_some
            (show (allocateSpot st v.type v.licensePlate).1 = some spot by rw [ha])
        rw [ha] at hst2
        have hst1 : st1 = { st with spots := updateSpot st.spots spot } := hst2
        subst hst1
        rw [checkIn_success now hg ha]
        have hs_avail : s.isAvailable = true := (mem_candidates.mp hsmem).2.1
        have hs_in : s ∈ st.spots := (mem_candidates.mp hsmem).1
        have hspotid : spot.id = s.id := by rw [hocc]; rfl
        have hunav : spot.isAvailable = false := by rw [hocc]; rfl
        have hfresh : ∀ t0 ∈ st.tickets, t0.isActive = true → t0.spotId ≠ spot.id := by
          intro t0 h0 ha0 he
          have hocc0 := (hpart t0 h0 ha0).2 s hs_in (by rw [hspotid] at he; exact he.symm)
          simp [hocc0] at hs_avail
        refine SpotTicketInv_of (updateSpot st.spots spot)
          (setTicket st.tickets
            ⟨generateTicketId st.ticketCounter, v, spot.id, now, none, none⟩) ?_ ?_ rfl rfl
        · intro x hx hact
          rcases mem_setTicket hx with rfl | hx2
          · refine ⟨?_, ?_⟩
            · refine exists_id_iff_mem_map.mpr ?_
              rw [updateSpot_ids]
              exact exists_id_iff_mem_map.mp ⟨s, hs_in, hspotid.symm⟩
            · intro x2 hx2' hx2id
              rcases updateSpot_mem_cases hx2' with rfl | ⟨hmem2, hne2⟩
              · exact hunav
              · exact absurd hx2id hne2
          · exact SpotTicketInv_updateOccupied ⟨hpart, hnodup⟩ spot hunav rfl x hx2 hact
        · exact activeSpotIds_setTicket_active
            (show ParkingTicket.isActive
              ⟨generateTicketId st.ticketCounter, v, spot.id, now, none, none⟩ = true
              from rfl)
            st.tickets hfresh hnodup
    · rw [checkIn_parked now hg]
      exact ⟨hpart, hnodup⟩
  | checkOut plate now =>
    rcases hg : getActiveTicketByVehicle st plate with _ | t
    · rw [checkOut_noSession now hg]
      exact ⟨hpart, hnodup⟩
    · rcases hf : calculateFee st.rates t.vehicle.type (t.getDuration now) with e | fee
      · rw [checkOut_feeError now hg hf]
        exact ⟨hpart, hnodup⟩
      · rcases hc : t.complete now fee with e | t'
        · rw [checkOut_completeError now hg hf hc]
          exact ⟨hpart, hnodup⟩
        · rw [checkOut_success now hg hf hc]
          obtain ⟨hteq, htact⟩ := complete_ok hc
          obtain ⟨htmem, htlook⟩ := getActive_some hg
          have ht'id : t'.ticketId = t.ticketId := by rw [hteq]
          have ht'spot : t'.spotId = t.spotId := by rw [hteq]
          have ht'inact : t'.isActive = false := by rw [hteq]; rfl
          have hctf := completeTicket_frame
            { st with tickets := setTicket st.tickets t' } t'.ticketId
          have hnotin : t.spotId ∉ activeSpotIds (setTicket st.tickets t') :=
            spotId_not_in_setTicket htact ht'inact ht'id st.tickets hnodup htlook
          have hmain : ∀ x ∈ setTicket st.tickets t', x.isActive = true →
              ((∃ s0 ∈ st.spots, s0.id = x.spotId) ∧
               (∀ x2 ∈ st.spots, x2.id = x.spotId → x2.isAvailable = false)) ∧
              x.spotId ≠ t.spotId := by
            intro x hx hact
            rcases mem_setTicket hx with rfl | hx2
            · rw [ht'inact] at hact
              cases hact
            · have hold := hpart x hx2 hact
              refine ⟨⟨hold.1, hold.2⟩, ?_⟩
              intro he
              apply hnotin
              rw [← he]
              exact mem_activeSpotIds.mpr ⟨x, hx, hact, rfl⟩
          have hnodup2 : (activeSpotIds (setTicket st.tickets t')).Nodup :=
            (activeSpotIds_setTicket_inactive ht'inact st.tickets).nodup hnodup
          rcases hg2 : getSpot (completeTicket
              { st with tickets := setTicket st.tickets t' } t'.ticketId).spots
              t'.spotId with _ | found
          · have hrel : releaseSpot (completeTicket
                { st with tickets := setTicket st.tickets t' } t'.ticketId) t'.spotId =
                (.error .spotNotFound, completeTicket
                  { st with tickets := setTicket st.tickets t' } t'.ticketId) := by
              unfold releaseSpot
              rw [hg2]
            rw [hrel]
            exact SpotTicketInv_of st.spots (setTicket st.tickets t')
              (fun x hx hact => (hmain x hx hact).1) hnodup2 hctf.2.1 hctf.1
          · have hfound := List.find?_some hg2
            have hfoundid : found.id = t'.spotId := beq_iff_eq.mp hfound
            have hrel : releaseSpot (completeTicket
                { st with tickets := setTicket st.tickets t' } t'.ticketId) t'.spotId =
                (.ok (), { completeTicket { st with tickets := setTicket st.tickets t' }
                    t'.ticketId with
                  spots := updateSpot (completeTicket
                    { st with tickets := setTicket st.tickets t' } t'.ticketId).spots
                    found.release }) := by
              unfold releaseSpot
              rw [hg2]
            rw [hrel]
            refine SpotTicketInv_of (updateSpot st.spots found.release)
              (setTicket st.tickets t') ?_ hnodup2 ?_ hctf.1
            · intro x hx hact
              have hm := hmain x hx hact
              refine ⟨?_, ?_⟩
              · refine exists_id_iff_mem_map.mpr ?_
                rw [updateSpot_ids]
                exact exists_id_iff_mem_map.mp hm.1.1
              · intro x2 hx2' hx2id
                rcases updateSpot_mem_cases hx2' with rfl | ⟨hmem2, hne2⟩
                · exfalso
                  apply hm.2
                  rw [← hx2id]
                  show (ParkingSpot.release found).id = t.spotId
                  rw [show (ParkingSpot.release found).id = found.id from rfl, hfoundid,
                    ht'spot]
                · exact hm.1.2 x2 hmem2 hx2id
            · show updateSpot (completeTicket
                { st with tickets := setTicket st.tickets t' } t'.ticketId).spots
                  found.release = updateSpot st.spots found.release
              rw [hctf.2.1]

/-- Counterexample to Claim C2 as stated: with raw `release` among the
allowed operations, the state `doubleLot` — reachable by check-in of `wV1`,
raw release of spot `M1`, and check-in of `wV2` — has two distinct active
tickets referencing the same spot `M1`, so the claimed invariant fails. -/
theorem claim_C2_counterexample :
    Reachable doubleLot ∧ ¬ SpotTicketInv doubleLot := by
  constructor
  · have h0 : Reachable oneSpotLot := Reachable.init 1 ⟨1, 0, 0⟩ defaultRates
    have h1 : Reachable parkedLot := Reachable.step h0 (Step.checkIn oneSpotLot wV1 0)
    have h2 : Reachable relLot := Reachable.step h1 (Step.rel parkedLot "M1")
    exact Reachable.step h2 (Step.checkIn relLot wV2 0)
  · intro hi
    have h2 := hi.2
    revert h2
    decide

/-- Claim C2 as amended: in every state reachable from an initialized lot by
sequences of check-in, check-out and raw allocate (raw `release` excluded),
each spot is occupied by at most one vehicle — distinct active tickets
reference distinct spots and every spot referenced by an active ticket is
occupied — and, in any state whatsoever, an allocation that returns a spot
assigned one that was available, never an already-occupied one. -/
theorem claim_C2_amended :
    (∀ st, ReachableNR st → SpotTicketInv st) ∧
    (∀ (st : LotState) (vt : VehicleType) (lic : String) (s' : ParkingSpot),
      (allocateSpot st vt lic).1 = some s' →
      ∃ s ∈ st.spots, s.isAvailable = true ∧ s' = occupiedBy s lic) := by
  constructor
  · intro st hr
    induction hr with
    | init floors cfg rates =>
      refine SpotTicketInv_of (initState floors cfg rates).spots
        ([] : List ParkingTicket) ?_ ?_ rfl rfl
      · intro t ht
        cases ht
      · simp [activeSpotIds]
    | step hr hstep ih => exact SpotTicketInv_stepNR ih hstep
  · intro st vt lic s' h
    obtain ⟨s, hsmem, hmin, rfl, hst⟩ := allocateSpot_some h
    have hmc := mem_candidates.mp hsmem
    exact ⟨s, hmc.1, hmc.2.1, rfl⟩

/-- Concrete run of amended Claim C2: the invariant holds after a check-in,
and a concrete allocation picks an available spot. -/
theorem claim_C2_witness :
    SpotTicketInv parkedLot ∧
    (∃ s ∈ oneSpotLot.spots, s.isAvailable = true ∧
      occupiedBy ⟨"M1", 1, .MOTORCYCLE, true, none⟩ "V1" = occupiedBy s "V1") :=
  ⟨claim_C2_amended.1 parkedLot
    (ReachableNR.step (ReachableNR.init 1 ⟨1, 0, 0⟩ defaultRates)
      (StepNR.checkIn oneSpotLot wV1 0)),
   claim_C2_amended.2 oneSpotLot .MOTORCYCLE "V1"
     (occupiedBy ⟨"M1", 1, .MOTORCYCLE, true, none⟩ "V1") rfl⟩

/-! ## Lookup-after-insert lemmas -/

theorem lookupTicket_set_self : ∀ (l : List ParkingTicket) (t : ParkingTicket),
    lookupTicket (setTicket l t) t.ticketId = some t
  | [], t => by simp [setTicket, lookupTicket]
  | y :: l, t => by
    unfold setTicket
    by_cases hb : (y.ticketId == t.ticketId) = true
    · rw [if_pos hb]
      simp [lookupTicket]
    · rw [if_neg hb]
      unfold lookupTicket
      rw [List.find?_cons]
      rw [Bool.not_eq_true] at hb
      rw [hb]
      exact lookupTicket_set_self l t

theorem indexLookup_set_self : ∀ (idx : List (String × String)) (plate tid : String),
    indexLookup (indexSet idx plate tid) plate = some tid
  | [], _, _ => by simp [indexSet, indexLookup]
  | e :: l, plate, tid => by
    unfold indexSet
    by_cases hb : (e.1 == plate) = true
    · rw [if_pos hb]
      simp [indexLookup]
    · rw [if_neg hb]
      unfold indexLookup
      rw [List.find?_cons]
      rw [Bool.not_eq_true] at hb
      rw [hb]
      exact indexLookup_set_self l plate tid

theorem complete_of_active {t : ParkingTicket} (h : t.isActive = true)
    (et : Int) (f : ℚ) :
    t.complete et f = .ok { t with exitTime := some et, fee := some f } := by
  simp [ParkingTicket.complete, h]

theorem calculateFee_ok {m : List ParkingRate} {vt : VehicleType} {d : ℚ}
    {rate : ParkingRate} (h : rateFor m vt = some rate) :
    calculateFee m vt d =
      .ok (if ⌈d⌉ ≤ 1 then rate.baseFee
           else rate.baseFee + ((⌈d⌉ - 1 : ℤ) : ℚ) * rate.hourlyRate) := by
  unfold calculateFee
  rw [h]
  simp only
  split_ifs <;> rfl

theorem getActive_addTicket (st : LotState) (t : ParkingTicket)
    (ht : t.isActive = true) :
    getActiveTicketByVehicle (addTicket st t) t.vehicle.licensePlate = some t := by
  unfold getActiveTicketByVehicle addTicket
  simp only [ht, if_true]
  rw [indexLookup_set_self]
  exact lookupTicket_set_self st.tickets t

/-- Core of the round trip: checking out an active ticket whose spot exists
completes the ticket with the computed fee and releases the spot. -/
theorem checkOut_core {A : LotState} {plate : String} {T : ParkingTicket}
    {rate : ParkingRate} {F : ℚ} (t1 : Int)
    (hgA : getActiveTicketByVehicle A plate = some T)
    (hact : T.isActive = true)
    (hrA : rateFor A.rates T.vehicle.type = some rate)
    (hex : ∃ x ∈ A.spots, x.id = T.spotId)
    (hF : F = if ⌈T.getDuration t1⌉ ≤ 1 then rate.baseFee
          else rate.baseFee + ((⌈T.getDuration t1⌉ - 1 : ℤ) : ℚ) * rate.hourlyRate) :
    ∃ st2,
      checkOutVehicle A plate t1 =
        (.ok { T with exitTime := some t1, fee := some F }, st2) ∧
      (∃ x ∈ st2.spots, x.id = T.spotId) ∧
      (∀ x ∈ st2.spots, x.id = T.spotId →
        x.isAvailable = true ∧ x.currentVehicleLicense = none) := by
  have hfeeA : calculateFee A.rates T.vehicle.type (T.getDuration t1) = .ok F := by
    rw [hF]
    exact calculateFee_ok hrA
  have hcomp : T.complete t1 F = .ok { T with exitTime := some t1, fee := some F } :=
    complete_of_active hact t1 F
  have hout0 := checkOut_success t1 hgA hfeeA hcomp
  have hctf := completeTicket_frame
    { A with tickets := setTicket A.tickets { T with exitTime := some t1, fee := some F } }
    ({ T with exitTime := some t1, fee := some F }).ticketId
  have hstc : (completeTicket
      { A with tickets := setTicket A.tickets ({ T with exitTime := some t1, fee := some F }) }
      ({ T with exitTime := some t1, fee := some F }).ticketId).spots = A.spots :=
    hctf.2.1
  have hex2 : ∃ x ∈ (completeTicket
      { A with tickets := setTicket A.tickets ({ T with exitTime := some t1, fee := some F }) }
      ({ T with exitTime := some t1, fee := some F }).ticketId).spots,
      (x.id == ({ T with exitTime := some t1, fee := some F } :
        ParkingTicket).spotId) = true := by
    rw [hstc]
    obtain ⟨x, hx, hid⟩ := hex
    exact ⟨x, hx, beq_iff_eq.mpr hid⟩
  have hsome : (getSpot (completeTicket
      { A with tickets := setTicket A.tickets ({ T with exitTime := some t1, fee := some F }) }
      ({ T with exitTime := some t1, fee := some F }).ticketId).spots
      ({ T with exitTime := some t1, fee := some F } :
        ParkingTicket).spotId).isSome = true :=
    List.find?_isSome.mpr hex2
  rcases hg2 : getSpot (completeTicket
      { A with tickets := setTicket A.tickets ({ T with exitTime := some t1, fee := some F }) }
      ({ T with exitTime := some t1, fee := some F }).ticketId).spots
      ({ T with exitTime := some t1, fee := some F } :
        ParkingTicket).spotId with _ | found
  · rw [hg2] at hsome
    exact absurd hsome (by simp)
  · have hfoundmem : found ∈ (completeTicket
        { A with tickets := setTicket A.tickets ({ T with exitTime := some t1, fee := some F }) }
        ({ T with exitTime := some t1, fee := some F }).ticketId).spots :=
      List.mem_of_find?_eq_some hg2
    have hfs := List.find?_some hg2
    have hfoundid : found.id = T.spotId := beq_iff_eq.mp hfs
    have hrel : releaseSpot (completeTicket
        { A with tickets := setTicket A.tickets ({ T with exitTime := some t1, fee := some F }) }
        ({ T with exitTime := some t1, fee := some F }).ticketId)
        ({ T with exitTime := some t1, fee := some F } :
          ParkingTicket).spotId =
        (.ok (), { completeTicket
            { A with tickets := setTicket A.tickets ({ T with exitTime := some t1, fee := some F }) }
            ({ T with exitTime := some t1, fee := some F }).ticketId with
          spots := updateSpot (completeTicket
            { A with tickets := setTicket A.tickets ({ T with exitTime := some t1, fee := some F }) }
            ({ T with exitTime := some t1, fee := some F }).ticketId).spots
            found.release }) := by
      unfold releaseSpot
      rw [hg2]
    rw [hrel] at hout0
    refine ⟨_, hout0, ?_, ?_⟩
    · refine ⟨found.release, ?_, ?_⟩
      · show ParkingSpot.release found ∈ updateSpot (completeTicket
          { A with tickets := setTicket A.tickets ({ T with exitTime := some t1, fee := some F }) }
          ({ T with exitTime := some t1, fee := some F }).ticketId).spots
          found.release
        have hb : (found.id == (ParkingSpot.release found).id) = true :=
          beq_iff_eq.mpr rfl
        have himg := List.mem_map_of_mem
          (fun x => if x.id == (ParkingSpot.release found).id
            then ParkingSpot.release found else x) hfoundmem
        simp only [hb, if_true] at himg
        exact himg
      · show (ParkingSpot.release found).id = T.spotId
        rw [show (ParkingSpot.release found).id = found.id from rfl, hfoundid]
    · intro x hx hid
      rcases updateSpot_mem_cases hx with rfl | ⟨hm, hne⟩
      · exact ⟨rfl, rfl⟩
      · exact absurd (hid.trans hfoundid.symm) hne

/-! ## Claim C3 — check-in / check-out round trip -/

/-- Claim C3: if a check-in of vehicle `v` succeeds returning session `S`,
then an immediate check-out of `v` returns a session with the same
identifier, exit timestamp set to the check-out time, fee computed by the
fee calculator from the elapsed duration for `v`'s class, and afterwards the
spot allocated to `S` is available again with no occupant. -/
theorem claim_C3_roundTrip (st : LotState) (v : Vehicle) (t0 t1 : Int)
    (S : ParkingTicket) (st1 : LotState)
    (hrate : (rateFor st.rates v.type).isSome = true)
    (hin : checkInVehicle st v t0 = (.ok (some S), st1)) :
    ∃ fee st2,
      checkOutVehicle st1 v.licensePlate t1 =
        (.ok { S with exitTime := some t1, fee := some fee }, st2) ∧
      calculateFee st.rates v.type (((t1 - t0 : ℤ) : ℚ) / 3600000) = .ok fee ∧
      (∃ s ∈ st2.spots, s.id = S.spotId) ∧
      (∀ s ∈ st2.spots, s.id = S.spotId →
        s.isAvailable = true ∧ s.currentVehicleLicense = none) := by
  obtain ⟨rate, hr⟩ := Option.isSome_iff_exists.mp hrate
  rcases hg : getActiveTicketByVehicle st v.licensePlate with _ | tExist
  · rcases ha : allocateSpot st v.type v.licensePlate with ⟨o, stA⟩
    rcases o with _ | spot
    · rw [checkIn_allocNone t0 hg ha] at hin
      injection hin with h1 h2
      injection h1 with h3
      exact Option.noConfusion h3
    · obtain ⟨s, hsmem, hmin, hocc, hst2⟩ :=
        allocateSpot_some
          (show (allocateSpot st v.type v.licensePlate).1 = some spot by rw [ha])
      rw [ha] at hst2
      have hstA : stA = { st with spots := updateSpot st.spots spot } := hst2
      subst hstA
      rw [checkIn_success t0 hg ha] at hin
      injection hin with h1 h2
      injection h1 with h3
      injection h3 with h4
      have hsin : s ∈ st.spots := (mem_candidates.mp hsmem).1
      have hspotid : spot.id = s.id := by rw [hocc]; rfl
      have hgout : getActiveTicketByVehicle st1 v.licensePlate = some S := by
        rw [← h2, ← h4]
        exact getActive_addTicket _ _ rfl
      have hact : S.isActive = true := by
        rw [← h4]
        rfl
      have hrA : rateFor st1.rates S.vehicle.type = some rate := by
        rw [← h2, ← h4]
        exact hr
      have hex : ∃ x ∈ st1.spots, x.id = S.spotId := by
        rw [← h2, ← h4]
        have hid : spot.id ∈ (updateSpot st.spots spot).map (·.id) := by
          rw [updateSpot_ids]
          exact exists_id_iff_mem_map.mp ⟨s, hsin, hspotid.symm⟩
        obtain ⟨x, hx, hxe⟩ := exists_id_iff_mem_map.mpr hid
        exact ⟨x, hx, hxe⟩
      obtain ⟨st2, hout, hex2, hall2⟩ := checkOut_core t1 hgout hact hrA hex rfl
      refine ⟨_, st2, hout, ?_, hex2, hall2⟩
      rw [← h4]
      exact calculateFee_ok hr
  · rw [checkIn_parked t0 hg] at hin
    injection hin with h1 h2
    exact Except.noConfusion h1

/-- Concrete run of Claim C3: `wV1` checks in to `oneSpotLot` at time 0 and
out at time 3600000 (one hour later). -/
theorem claim_C3_witness :
    (rateFor oneSpotLot.rates wV1.type).isSome = true ∧
    ∃ fee st2,
      checkOutVehicle parkedLot wV1.licensePlate 3600000 =
        (.ok { wT1 with exitTime := some 3600000, fee := some fee }, st2) ∧
      calculateFee oneSpotLot.rates wV1.type (((3600000 - 0 : ℤ) : ℚ) / 3600000) =
        .ok fee ∧
      (∃ s ∈ st2.spots, s.id = wT1.spotId) ∧
      (∀ s ∈ st2.spots, s.id = wT1.spotId →
        s.isAvailable = true ∧ s.currentVehicleLicense = none) :=
  ⟨by decide,
   claim_C3_roundTrip oneSpotLot wV1 0 3600000 wT1 parkedLot (by decide) rfl⟩

/-! ## Decimal rendering lemmas -/

theorem digitChar_toNat {d : Nat} (hd : d < 10) :
    (Nat.digitChar d).toNat - 48 = d := by
  interval_cases d <;> rfl

theorem decVal_append_digit (l : List Char) (c : Char) :
    decVal (l ++ [c]) = decVal l * 10 + (c.toNat - 48) := by
  simp [decVal, List.foldl_append]

theorem decVal_decDigitsAux : ∀ (fuel n : Nat), n ≤ fuel →
    decVal (decDigitsAux fuel n) = n
  | 0, n, h => by
    have hn : n = 0 := by omega
    subst hn
    rfl
  | fuel + 1, n, h => by
    unfold decDigitsAux
    by_cases hn : n = 0
    · subst hn
      rfl
    · rw [if_neg hn, decVal_append_digit,
        decVal_decDigitsAux fuel (n / 10) (by omega),
        digitChar_toNat (Nat.mod_lt n (by omega))]
      omega

theorem natDecimal_val (n : Nat) : decVal (natDecimal n).data = n := by
  unfold natDecimal
  by_cases hn : n = 0
  · subst hn
    decide
  · rw [if_neg hn]
    exact decVal_decDigitsAux n n le_rfl

theorem idKey_pfx (sty : SpotType) (k : Nat) :
    idKey (classPfx sty ++ natDecimal k) = k := by
  cases sty
  · unfold idKey classPfx
    rw [String.data_append, show ("M" : String).data = ['M'] from rfl,
      List.singleton_append, List.tail_cons]
    exact natDecimal_val k
  · unfold idKey classPfx
    rw [String.data_append, show ("C" : String).data = ['C'] from rfl,
      List.singleton_append, List.tail_cons]
    exact natDecimal_val k
  · unfold idKey classPfx
    rw [String.data_append, show ("L" : String).data = ['L'] from rfl,
      List.singleton_append, List.tail_cons]
    exact natDecimal_val k

/-! ## Closed forms for lot initialization -/

theorem buildClassSpots_eq (sty : SpotType) (floor : Nat) : ∀ (cnt ctr : Nat),
    buildClassSpots sty floor cnt ctr =
      ((List.range' ctr cnt).map
        (fun k => (⟨classPfx sty ++ natDecimal k, floor, sty, true, none⟩ : ParkingSpot)),
       ctr + cnt)
  | 0, ctr => by simp [buildClassSpots]
  | cnt + 1, ctr => by
    unfold buildClassSpots
    rw [buildClassSpots_eq sty floor cnt (ctr + 1), List.range'_succ, List.map_cons]
    refine Prod.ext rfl ?_
    show ctr + 1 + cnt = ctr + (cnt + 1)
    omega

theorem idKeys_classSegment (sty : SpotType) (floor s c : Nat) :
    (((List.range' s c).map
      (fun k => (⟨classPfx sty ++ natDecimal k, floor, sty, true, none⟩ : ParkingSpot))).map
        (fun x => idKey x.id)) = List.range' s c := by
  rw [List.map_map]
  calc ((List.range' s c).map ((fun x => idKey x.id) ∘
        (fun k => (⟨classPfx sty ++ natDecimal k, floor, sty, true, none⟩ : ParkingSpot))))
      = (List.range' s c).map id := by
        apply List.map_congr_left
        intro k _
        exact idKey_pfx sty k
    _ = List.range' s c := List.map_id _

theorem range'_concat (s a b : Nat) :
    List.range' s a ++ List.range' (s + a) b = List.range' s (a + b) := by
  have h := List.range'_append s a b 1
  simp only [one_mul] at h
  rw [Nat.add_comm b a] at h
  exact h

theorem buildFloorSpots_eq (cfg : SpotsPerFloor) (floor ctr : Nat) :
    buildFloorSpots cfg floor ctr =
      ((List.range' ctr cfg.motorcycle).map
        (fun k => (⟨classPfx .MOTORCYCLE ++ natDecimal k, floor, .MOTORCYCLE, true, none⟩ :
          ParkingSpot)) ++
       (List.range' (ctr + cfg.motorcycle) cfg.compact).map
        (fun k => (⟨classPfx .COMPACT ++ natDecimal k, floor, .COMPACT, true, none⟩ :
          ParkingSpot)) ++
       (List.range' (ctr + cfg.motorcycle + cfg.compact) cfg.large).map
        (fun k => (⟨classPfx .LARGE ++ natDecimal k, floor, .LARGE, true, none⟩ :
          ParkingSpot)),
       ctr + (cfg.motorcycle + cfg.compact + cfg.large)) := by
  unfold buildFloorSpots
  simp only [buildClassSpots_eq]
  exact Prod.ext rfl (by omega)

theorem buildFloors_spec (cfg : SpotsPerFloor) : ∀ (n floor ctr : Nat),
    ((buildFloors cfg n floor ctr).1.map (fun x => idKey x.id) =
      List.range' ctr (n * (cfg.motorcycle + cfg.compact + cfg.large))) ∧
    ((buildFloors cfg n floor ctr).2 =
      ctr + n * (cfg.motorcycle + cfg.compact + cfg.large)) ∧
    (∀ x ∈ (buildFloors cfg n floor ctr).1,
      floor ≤ x.floor ∧ x.floor < floor + n ∧ x.isAvailable = true ∧
      x.currentVehicleLicense = none ∧
      x.id = classPfx x.spotType ++ natDecimal (idKey x.id))
  | 0, floor, ctr => by
    refine ⟨by simp [buildFloors], by simp [buildFloors], ?_⟩
    intro x hx
    simp [buildFloors] at hx
  | n + 1, floor, ctr => by
    obtain ⟨ih1, ih2, ih3⟩ := buildFloors_spec cfg n (floor + 1)
      (ctr + (cfg.motorcycle + cfg.compact + cfg.large))
    have hfl : buildFloors cfg (n + 1) floor ctr =
        ((buildFloorSpots cfg floor ctr).1 ++
          (buildFloors cfg n (floor + 1) (buildFloorSpots cfg floor ctr).2).1,
         (buildFloors cfg n (floor + 1) (buildFloorSpots cfg floor ctr).2).2) := rfl
    rw [hfl]
    rw [buildFloorSpots_eq]
    refine ⟨?_, ?_, ?_⟩
    · simp only [List.map_append]
      rw [idKeys_classSegment, idKeys_classSegment, idKeys_classSegment, ih1]
      rw [range'_concat]
      rw [show ctr + cfg.motorcycle + cfg.compact =
        ctr + (cfg.motorcycle + cfg.compact) from by omega]
      rw [range'_concat]
      rw [range'_concat]
      congr 1
      ring
    · rw [ih2]
      ring
    · intro x hx
      rcases List.mem_append.mp hx with hx1 | hx2
      · have hfloor : x.floor = floor ∧ x.isAvailable = true ∧
            x.currentVehicleLicense = none ∧
            x.id = classPfx x.spotType ++ natDecimal (idKey x.id) := by
          rcases List.mem_append.mp hx1 with hx3 | hx4
          · rcases List.mem_append.mp hx3 with hx5 | hx6
            · obtain ⟨k, hk, rfl⟩ := List.mem_map.mp hx5
              exact ⟨rfl, rfl, rfl, by rw [idKey_pfx]⟩
            · obtain ⟨k, hk, rfl⟩ := List.mem_map.mp hx6
              exact ⟨rfl, rfl, rfl, by rw [idKey_pfx]⟩
          · obtain ⟨k, hk, rfl⟩ := List.mem_map.mp hx4
            exact ⟨rfl, rfl, rfl, by rw [idKey_pfx]⟩
        exact ⟨by omega, by omega, hfloor.2.1, hfloor.2.2.1, hfloor.2.2.2⟩
      · have := ih3 x hx2
        exact ⟨by omega, by omega, this.2.2.1, this.2.2.2.1, this.2.2.2.2⟩

theorem countP_classSegment (styS : SpotType) (floor s c f : Nat) (sty : SpotType) :
    (((List.range' s c).map
      (fun k => (⟨classPfx styS ++ natDecimal k, floor, styS, true, none⟩ : ParkingSpot))).countP
      (fun x => x.floor == f && x.spotType == sty)) =
      if f = floor ∧ sty = styS then c else 0 := by
  rw [List.countP_map]
  by_cases h : f = floor ∧ sty = styS
  · obtain ⟨rfl, rfl⟩ := h
    rw [if_pos ⟨rfl, rfl⟩]
    have hall : ∀ k ∈ List.range' s c,
        ((fun x : ParkingSpot => x.floor == f && x.spotType == sty) ∘
          (fun k => (⟨classPfx sty ++ natDecimal k, f, sty, true, none⟩ : ParkingSpot))) k
          = true := by
      intro k _
      simp
    rw [List.countP_eq_length.mpr hall, List.length_range']
  · rw [if_neg h]
    apply List.countP_eq_zero.mpr
    intro k _
    intro hk
    simp only [Function.comp_apply, Bool.and_eq_true, beq_iff_eq] at hk
    exact h ⟨hk.1.symm, hk.2.symm⟩

theorem buildFloors_countP (cfg : SpotsPerFloor) (sty : SpotType) :
    ∀ (n floor ctr f : Nat), floor ≤ f → f < floor + n →
      ((buildFloors cfg n floor ctr).1.countP
        (fun x => x.floor == f && x.spotType == sty)) = classCount cfg sty
  | 0, floor, ctr, f, h1, h2 => by omega
  | n + 1, floor, ctr, f, h1, h2 => by
    have hfl : buildFloors cfg (n + 1) floor ctr =
        ((buildFloorSpots cfg floor ctr).1 ++
          (buildFloors cfg n (floor + 1) (buildFloorSpots cfg floor ctr).2).1,
         (buildFloors cfg n (floor + 1) (buildFloorSpots cfg floor ctr).2).2) := rfl
    rw [hfl]
    rw [buildFloorSpots_eq]
    simp only [List.countP_append]
    rw [countP_classSegment, countP_classSegment, countP_classSegment]
    by_cases hf : f = floor
    · subst hf
      have hrest : ((buildFloors cfg n (f + 1)
          (ctr + (cfg.motorcycle + cfg.compact + cfg.large))).1.countP
          (fun x => x.floor == f && x.spotType == sty)) = 0 := by
        apply List.countP_eq_zero.mpr
        intro x hx hpx
        have hmem := (buildFloors_spec cfg n (f + 1)
          (ctr + (cfg.motorcycle + cfg.compact + cfg.large))).2.2 x hx
        simp only [Bool.and_eq_true, beq_iff_eq] at hpx
        omega
      rw [hrest]
      cases sty <;> simp [classCount]
    · have hfge : floor + 1 ≤ f := by omega
      rw [buildFloors_countP cfg sty n (floor + 1) _ f hfge (by omega)]
      have hnotM : ¬(f = floor ∧ sty = SpotType.MOTORCYCLE) := fun hc => hf hc.1
      have hnotC : ¬(f = floor ∧ sty = SpotType.COMPACT) := fun hc => hf hc.1
      have hnotL : ¬(f = floor ∧ sty = SpotType.LARGE) := fun hc => hf hc.1
      rw [if_neg hnotM, if_neg hnotC, if_neg hnotL]
      omega

theorem foldl_addSpot_fresh : ∀ (new old : List ParkingSpot),
    (∀ x ∈ new, ∀ y ∈ old, y.id ≠ x.id) → ((new.map (·.id)).Nodup) →
    new.foldl addSpot old = old ++ new
  | [], old, _, _ => by simp
  | x :: new, old, hdisj, hnd => by
    have hnd' : (x.id :: new.map (·.id)).Nodup := by simpa using hnd
    rw [List.foldl_cons]
    have hadd : addSpot old x = old ++ [x] := by
      unfold addSpot
      rw [if_neg ?_]
      intro hany
      obtain ⟨y, hy, hbeq⟩ := List.any_eq_true.mp hany
      exact hdisj x (List.mem_cons_self x new) y hy (beq_iff_eq.mp hbeq)
    rw [hadd]
    rw [foldl_addSpot_fresh new (old ++ [x]) ?_ ?_]
    · rw [List.append_assoc, List.singleton_append]
    · intro z hz y hy
      rcases List.mem_append.mp hy with hyo | hyx
      · exact hdisj z (List.mem_cons_of_mem x hz) y hyo
      · rw [List.mem_singleton.mp hyx]
        intro he
        exact (List.nodup_cons.mp hnd').1 (he ▸ List.mem_map_of_mem (·.id) hz)
    · exact (List.nodup_cons.mp hnd').2

theorem initState_spots (floors : Nat) (cfg : SpotsPerFloor)
    (rates : List ParkingRate) :
    (initState floors cfg rates).spots = (buildFloors cfg floors 1 1).1 := by
  show ((buildFloors cfg floors 1 1).1).foldl addSpot [] = (buildFloors cfg floors 1 1).1
  rw [foldl_addSpot_fresh _ [] (fun x _ y hy => absurd hy (List.not_mem_nil y)) ?_]
  · rw [List.nil_append]
  · apply List.Nodup.of_map idKey
    have h2 : ((buildFloors cfg floors 1 1).1.map (·.id)).map idKey =
        List.range' 1 (floors * (cfg.motorcycle + cfg.compact + cfg.large)) := by
      rw [List.map_map]
      exact (buildFloors_spec cfg floors 1 1).1
    rw [h2]
    exact List.nodup_range' _ _

/-! ## Claim C9 — lot initialization -/

/-- Counterexample to Claim C9 as stated: identifiers are not assigned by a
per-class running counter.  On one floor with one spot of each class the
code produces ids `M1, C2, L3` (one counter shared across classes), not the
per-class numbering `M1, C1, L1`. -/
theorem claim_C9_counterexample :
    (initState 1 ⟨1, 1, 1⟩ defaultRates).spots.map (fun x => x.id) ≠
      perClassCounterIds 1 ⟨1, 1, 1⟩ := by
  decide

/-- Claim C9 as amended: for floorCount ≥ 1, `initializeParkingLot` inserts
into the store exactly floorCount × (sum of per-class counts) spots, each
with floor between 1 and floorCount, available, unoccupied, and of the
declared class (each floor receives exactly the declared number of spots of
each class); identifiers are class-prefixed decimal numbers drawn from a
single running counter shared across all classes, numbering the spots
1..total in creation order. -/
theorem claim_C9_amended (floors : Nat) (cfg : SpotsPerFloor)
    (rates : List ParkingRate) (hfl : 1 ≤ floors) :
    (initState floors cfg rates).spots.length =
      floors * (cfg.motorcycle + cfg.compact + cfg.large) ∧
    (∀ x ∈ (initState floors cfg rates).spots,
      1 ≤ x.floor ∧ x.floor ≤ floors ∧ x.isAvailable = true ∧
      x.currentVehicleLicense = none ∧
      x.id = classPfx x.spotType ++ natDecimal (idKey x.id)) ∧
    ((initState floors cfg rates).spots.map (fun x => idKey x.id) =
      List.range' 1 (floors * (cfg.motorcycle + cfg.compact + cfg.large))) ∧
    (∀ f, 1 ≤ f → f ≤ floors → ∀ sty,
      ((initState floors cfg rates).spots.countP
        (fun x => x.floor == f && x.spotType == sty)) = classCount cfg sty) := by
  obtain ⟨hk, hsnd, hmem⟩ := buildFloors_spec cfg floors 1 1
  rw [initState_spots]
  refine ⟨?_, ?_, hk, ?_⟩
  · have hlen := congrArg List.length hk
    rw [List.length_map, List.length_range'] at hlen
    exact hlen
  · intro x hx
    have hx2 := hmem x hx
    exact ⟨hx2.1, by omega, hx2.2.2.1, hx2.2.2.2.1, hx2.2.2.2.2⟩
  · intro f h1 h2 sty
    exact buildFloors_countP cfg sty floors 1 1 f h1 (by omega)

/-- Concrete run of amended Claim C9: a two-floor lot with counts (1, 2, 1)
holds 8 spots. -/
theorem claim_C9_witness :
    1 ≤ 2 ∧ (initState 2 ⟨1, 2, 1⟩ defaultRates).spots.length = 2 * (1 + 2 + 1) :=
  ⟨by decide, (claim_C9_amended 2 ⟨1, 2, 1⟩ defaultRates (by decide)).1⟩
